import Mathlib

/-! Shallow embedding of the fontra-glyphs backend, from
`src/fontra_glyphs/backend.py` and `src/fontra_glyphs/utils.py`.

Modelling conventions:
* Python dicts are association lists with unique keys kept in insertion
  order (`aGet`/`aSet`/`aMerge` mirror `d.get`, `d[k] = v`, `{**a, **b}`);
  dict equality (`==` / `in` on lists of dicts) is key-set-insensitive
  (`dictBeq`).
* Numeric values (axis coordinates, kerning values, widths) are exact
  rationals.
* Python exceptions are an explicit `Except PyErr` result.
* The plist serializer/parser and the glyphsLib object parser are the
  out-of-repository structured document model; a serialize-then-reparse
  round trip is modelled as the identity on the glyph object model, so the
  "raw" stored form of a glyph is a `GSGlyphM` value.
-/

namespace FontraGlyphs

set_option maxRecDepth 16384

/-- Python exceptions raised by the modelled code paths. -/
inductive PyErr where
  | backendError (msg : String)
  | notImplementedError (msg : String)
  | keyError (msg : String)
  | valueError (msg : String)
  | assertionError
  | indexError
  | nameError (msg : String)
  deriving DecidableEq, Repr

/-- Python `d.get(k)` on a dict represented as an association list. -/
def aGet {α β : Type} [DecidableEq α] (d : List (α × β)) (k : α) : Option β :=
  match d with
  | [] => none
  | (k', v) :: rest => if k' = k then some v else aGet rest k

/-- Python `d[k] = v`: overwrite the existing entry in place, else append. -/
def aSet {α β : Type} [DecidableEq α] (d : List (α × β)) (k : α) (v : β) :
    List (α × β) :=
  match d with
  | [] => [(k, v)]
  | (k', v') :: rest => if k' = k then (k, v) :: rest else (k', v') :: aSet rest k v

/-- Python `del d[k]` (no error if the key is absent; callers check first). -/
def aDel {α β : Type} [DecidableEq α] (d : List (α × β)) (k : α) : List (α × β) :=
  match d with
  | [] => []
  | (k', v') :: rest => if k' = k then rest else (k', v') :: aDel rest k

/-- Python `{**a, **b}` / `a | b`: entries of `b` override entries of `a`. -/
def aMerge {α β : Type} [DecidableEq α] (a b : List (α × β)) : List (α × β) :=
  b.foldl (fun acc kv => aSet acc kv.1 kv.2) a

/-- The keys of a dict, in insertion order. -/
def aKeys {α β : Type} (d : List (α × β)) : List α := d.map Prod.fst

/-- Python `k in d`. -/
def aHasKey {α β : Type} [DecidableEq α] (d : List (α × β)) (k : α) : Bool :=
  (aGet d k).isSome

/-- Python `==` on dicts: same keys with equal values, insertion order ignored. -/
def dictBeq {α β : Type} [DecidableEq α] [DecidableEq β]
    (a b : List (α × β)) : Bool :=
  a.all (fun kv => decide (aGet b kv.1 = some kv.2)) &&
    b.all (fun kv => decide (aGet a kv.1 = some kv.2))

/-- Python `x in xs` for a list of dicts (membership via dict `==`). -/
def dictMem {α β : Type} [DecidableEq α] [DecidableEq β]
    (x : List (α × β)) (xs : List (List (α × β))) : Bool :=
  xs.any (fun y => dictBeq x y)

/-- Python truthiness of an optional string (`None` and `""` are falsy). -/
def pyStrTruthy : Option String → Bool
  | none => false
  | some s => decide (s ≠ "")

/-- Python `a or b` where `a` is an optional string and `b` a string. -/
def pyOrStr (a : Option String) (b : String) : String :=
  match a with
  | some s => if s = "" then b else s
  | none => b

/-- Python `a or b` on two optional strings (used for id fallbacks). -/
def pyOrOpt (a b : Option String) : Option String :=
  if pyStrTruthy a then a else b

/-- Python `f"{x}"` for a value that may be `None`. -/
def pyShowOptStr : Option String → String
  | none => "None"
  | some s => s

/-- `s.startswith(p)`. -/
def strStartsWith (s p : String) : Bool := p.data.isPrefixOf s.data

/-- `s.endswith(p)`. -/
def strEndsWith (s p : String) : Bool :=
  p.data.reverse.isPrefixOf s.data.reverse

/-- Whether `sub` occurs inside `l` (Python `sub in s`). -/
def hasSubList (sub : List Char) : List Char → Bool
  | [] => sub.isEmpty
  | c :: rest => sub.isPrefixOf (c :: rest) || hasSubList sub rest

/-- Python `sub in s` on strings. -/
def strHasSub (s sub : String) : Bool := hasSubList sub.data s.data

/-- Helper for `s.split(sep, 1)`: first occurrence of `sep` splits `l`. -/
def splitFirstAux (sep : List Char) (pre : List Char) :
    List Char → Option (List Char × List Char)
  | [] => if sep.isPrefixOf [] then some (pre.reverse, []) else none
  | c :: rest =>
    if sep.isPrefixOf (c :: rest) then
      some (pre.reverse, (c :: rest).drop sep.length)
    else splitFirstAux sep (c :: pre) rest

/-- Python `s.split(sep, 1)`; `none` when `sep` does not occur (in the source
that case would make the 2-tuple unpacking raise, which callers rule out). -/
def strSplitFirst (s sep : String) : Option (String × String) :=
  (splitFirstAux sep.data [] s.data).map fun p => (String.mk p.1, String.mk p.2)

/-- `s[:-n]`: drop the last `n` characters. -/
def strDropRight (s : String) (n : Nat) : String :=
  String.mk (s.data.take (s.data.length - n))

/-- Fuel-driven body of Python `s.replace(sub, repl)` (all occurrences,
left to right, non-overlapping); `sub` is nonempty at every call site. -/
def replaceSubFuel (sub repl : List Char) : Nat → List Char → List Char
  | _, [] => []
  | 0, l => l
  | fuel + 1, c :: rest =>
    if sub ≠ [] ∧ sub.isPrefixOf (c :: rest) then
      repl ++ replaceSubFuel sub repl fuel (List.drop (sub.length - 1) rest)
    else
      c :: replaceSubFuel sub repl fuel rest

/-- Python `s.replace(sub, repl)`. -/
def pyReplace (s sub repl : String) : String :=
  String.mk (replaceSubFuel sub.data repl.data s.data.length s.data)

/-- Python `s.strip(chars)`: remove the given characters from both ends. -/
def stripChars (cs : List Char) (s : String) : String :=
  String.mk
    (((s.data.dropWhile (cs.contains ·)).reverse.dropWhile (cs.contains ·)).reverse)

/-- Insertion step of a stable insertion sort on a boolean `le`. -/
def insertSorted {α : Type} (le : α → α → Bool) (x : α) : List α → List α
  | [] => [x]
  | y :: ys => if le x y then x :: y :: ys else y :: insertSorted le x ys

/-- Stable insertion sort (models Python `sorted`). -/
def sortByLe {α : Type} (le : α → α → Bool) (l : List α) : List α :=
  l.foldr (insertSorted le) []

/-- Code-point lexicographic `<` on char lists (Python string `<`). -/
def clLt : List Char → List Char → Bool
  | [], [] => false
  | [], _ :: _ => true
  | _ :: _, [] => false
  | a :: as, b :: bs =>
    if a.toNat < b.toNat then true
    else if b.toNat < a.toNat then false
    else clLt as bs

/-- Python `a <= b` on strings. -/
def strLeB (a b : String) : Bool := clLt a.data b.data || a == b

/-- Python `sorted` on strings. -/
def sortStrings (l : List String) : List String := sortByLe strLeB l

/-- First-occurrence deduplication (Python `set` materialized in iteration
order, which for the modelled uses is insertion order). -/
def dedupFirst {α : Type} [DecidableEq α] : List α → List α
  | [] => []
  | x :: xs => x :: (dedupFirst xs).filter (fun y => decide (y ≠ x))

/-- Decimal digits of a natural number (fuel-driven, little-endian). -/
def natDigitsAux : Nat → Nat → List Char
  | 0, _ => []
  | fuel + 1, n =>
    if n = 0 then []
    else Char.ofNat (48 + n % 10) :: natDigitsAux fuel (n / 10)

/-- A natural number in decimal. -/
def natToStr (n : Nat) : String :=
  if n = 0 then "0" else String.mk (natDigitsAux (n + 1) n).reverse

/-- An integer in decimal. -/
def intToStr (i : Int) : String :=
  if i < 0 then "-" ++ natToStr i.natAbs else natToStr i.natAbs

/-- Uppercase hexadecimal digit. -/
def hexDigitUpper (n : Nat) : Char :=
  if n < 10 then Char.ofNat (48 + n) else Char.ofNat (55 + n)

/-- A byte as two uppercase hex digits. -/
def byteToHexUpper (b : Nat) : List Char :=
  [hexDigitUpper (b / 16 % 16), hexDigitUpper (b % 16)]

/-- Hexadecimal digits of a natural number (fuel-driven, little-endian). -/
def natHexAux : Nat → Nat → List Char
  | 0, _ => []
  | fuel + 1, n =>
    if n = 0 then []
    else hexDigitUpper (n % 16) :: natHexAux fuel (n / 16)

/-- `f"{n:04X}"`: uppercase hex, zero-padded to at least four digits. -/
def natToHex4 (n : Nat) : String :=
  let ds := (natHexAux (n + 1) n).reverse
  String.mk (List.replicate (4 - ds.length) '0' ++ ds)

/-- Value of a hexadecimal digit, if it is one. -/
def hexVal (c : Char) : Option Nat :=
  if 48 ≤ c.toNat ∧ c.toNat ≤ 57 then some (c.toNat - 48)
  else if 97 ≤ c.toNat ∧ c.toNat ≤ 102 then some (c.toNat - 87)
  else if 65 ≤ c.toNat ∧ c.toNat ≤ 70 then some (c.toNat - 55)
  else none

/-- Value of a string of hex digits (`int(s, 16)` restricted to plain digit
strings; forms `int` accepts beyond these, like sign or underscores, can
never equal the canonical form `isGlyphsUUID` compares against, so the
restriction does not change any modelled outcome). -/
def hexStrVal : List Char → Option Nat
  | [] => some 0
  | c :: rest =>
    match hexVal c, hexStrVal rest with
    | some d, some acc => some (d * 16 ^ rest.length + acc)
    | _, _ => none

/-- UTF-8 bytes of one character (`str.encode("utf-8")`). -/
def utf8Char (c : Char) : List Nat :=
  let n := c.toNat
  if n < 128 then [n]
  else if n < 2048 then [192 + n / 64, 128 + n % 64]
  else if n < 65536 then [224 + n / 4096, 128 + n / 64 % 64, 128 + n % 64]
  else [240 + n / 262144, 128 + n / 4096 % 64, 128 + n / 64 % 64, 128 + n % 64]

/-- UTF-8 encoding of a string. -/
def utf8Encode (s : String) : List Nat := s.data.flatMap utf8Char

/-- Truncation to 32 bits. -/
def w32 (n : Nat) : Nat := n % 4294967296

/-- 32-bit left rotation. -/
def rotl (k n : Nat) : Nat :=
  w32 (Nat.shiftLeft (w32 n) k) ||| Nat.shiftRight (w32 n) (32 - k)

/-- Big-endian bytes of `n`, `k` bytes wide. -/
def beBytes (k n : Nat) : List Nat :=
  (List.range k).map fun i => n / 256 ^ (k - 1 - i) % 256

/-- SHA-1 message padding. -/
def sha1Pad (msg : List Nat) : List Nat :=
  let len := msg.length
  let zeros := (64 + 56 - (len + 1) % 64) % 64
  msg ++ 128 :: List.replicate zeros 0 ++ beBytes 8 (8 * len)

/-- Split into 64-byte chunks (fuel-driven). -/
def chunks64 : Nat → List Nat → List (List Nat)
  | 0, _ => []
  | _, [] => []
  | fuel + 1, l => l.take 64 :: chunks64 fuel (l.drop 64)

/-- Big-endian word value of a byte list. -/
def beWord (bs : List Nat) : Nat := bs.foldl (fun acc b => acc * 256 + b) 0

/-- The sixteen 32-bit words of one 64-byte chunk. -/
def chunkWords (c : List Nat) : List Nat :=
  (List.range 16).map fun i => beWord ((c.drop (4 * i)).take 4)

/-- SHA-1 message-schedule extension by `k` additional words. -/
def sha1Extend (ws : List Nat) : Nat → List Nat
  | 0 => ws
  | k + 1 =>
    let prev := sha1Extend ws k
    let i := prev.length
    prev ++ [rotl 1 (Nat.xor (Nat.xor (prev.getD (i - 3) 0) (prev.getD (i - 8) 0))
      (Nat.xor (prev.getD (i - 14) 0) (prev.getD (i - 16) 0)))]

/-- SHA-1 running state. -/
structure Sha1State where
  h0 : Nat
  h1 : Nat
  h2 : Nat
  h3 : Nat
  h4 : Nat
  deriving Repr

/-- One SHA-1 round: `st` is `(a, b, c, d, e)`, `iw` the round index and word. -/
def sha1Round (st : Nat × Nat × Nat × Nat × Nat) (iw : Nat × Nat) :
    Nat × Nat × Nat × Nat × Nat :=
  let (a, b, c, d, e) := st
  let (i, w) := iw
  let f :=
    if i < 20 then (b &&& c) ||| ((Nat.xor b 4294967295) &&& d)
    else if i < 40 then Nat.xor (Nat.xor b c) d
    else if i < 60 then (b &&& c) ||| (b &&& d) ||| (c &&& d)
    else Nat.xor (Nat.xor b c) d
  let k :=
    if i < 20 then 1518500249
    else if i < 40 then 1859775393
    else if i < 60 then 2400959708
    else 3395469782
  let temp := w32 (rotl 5 a + f + e + k + w)
  (temp, a, rotl 30 b, c, d)

/-- Process one 64-byte chunk. -/
def sha1Chunk (st : Sha1State) (c : List Nat) : Sha1State :=
  let ws := sha1Extend (chunkWords c) 64
  let (a, b, cc, d, e) :=
    ((List.range 80).zip ws).foldl sha1Round (st.h0, st.h1, st.h2, st.h3, st.h4)
  ⟨w32 (st.h0 + a), w32 (st.h1 + b), w32 (st.h2 + cc), w32 (st.h3 + d),
    w32 (st.h4 + e)⟩

/-- SHA-1 digest (20 bytes) of a byte string (`hashlib.sha1(seed).digest()`). -/
def sha1 (msg : List Nat) : List Nat :=
  let padded := sha1Pad msg
  let st := (chunks64 (padded.length + 1) padded).foldl sha1Chunk
    ⟨1732584193, 4023233417, 2562383102, 271733878, 3285377520⟩
  beBytes 4 st.h0 ++ beBytes 4 st.h1 ++ beBytes 4 st.h2 ++ beBytes 4 st.h3 ++
    beBytes 4 st.h4

/-- `str(uuid.UUID(bytes=b)).upper()`: 16 bytes in the canonical
8-4-4-4-12 uppercase hexadecimal form. -/
def uuidCanonicalUpper (bytes : List Nat) : String :=
  let hx := (bytes.map byteToHexUpper).flatten
  String.mk (hx.take 8 ++ '-' :: ((hx.drop 8).take 4 ++ '-' ::
    ((hx.drop 12).take 4 ++ '-' :: ((hx.drop 16).take 4 ++ '-' :: hx.drop 20))))

/-- `uuid.UUID(s)` as far as `isGlyphsUUID` needs it: strip `urn:`/`uuid:`,
braces at the ends and hyphens, then read 32 hex digits as 16 bytes. -/
def uuidParseBytes (s : String) : Option (List Nat) :=
  let hx := pyReplace (stripChars ['{', '}']
    (pyReplace (pyReplace s "urn:" "") "uuid:" "")) "-" ""
  if hx.data.length = 32 then
    (hexStrVal hx.data).map fun n => beBytes 16 n
  else none

/-- `isGlyphsUUID` (backend.py): the string parses as a UUID and equals its
own canonical uppercase form. -/
def isGlyphsUUID (maybeUUID : String) : Bool :=
  match uuidParseBytes maybeUUID with
  | none => false
  | some bytes => maybeUUID == uuidCanonicalUpper bytes

/-- The deterministic layer identifier `getLayerId` derives from
`"<glyphName>/<layerName>"`: the first 16 bytes of the SHA-1 digest,
formatted as a canonical uppercase UUID. -/
def glyphsLayerIdHash (glyphName layerName : String) : String :=
  uuidCanonicalUpper ((sha1 (utf8Encode (glyphName ++ "/" ++ layerName))).take 16)

/-! ## Data model

Numeric axis/kerning values are exact rationals. The outline, component,
anchor and guideline contents of a layer are carried as an opaque `shape`
payload: the pen-based shape codec converts them through the out-of-scope
path abstraction and none of the verified claims concerns shape geometry;
the payload travels verbatim through the modelled conversions. -/

/-- Numeric values (Python ints/floats compared exactly). -/
abbrev Val := Rat

/-- A design-space location: a Python dict from axis name to value. -/
abbrev Loc := List (String × Val)

/-- `glyphsLib.builder.smart_components.Pole`. -/
inductive Pole where
  | MIN
  | MAX
  deriving DecidableEq, Repr

/-- `GSSmartComponentAxis`. -/
structure SmartAxisM where
  name : String
  bottomValue : Val
  topValue : Val
  deriving DecidableEq, Repr

/-- A native `GSLayer`: identifier, optional human name, associated master,
optional brace coordinates (the `attributes["coordinates"]` marker), smart
pole mapping, the two stashed `xyz.fontra.*` user-data entries live in
`userData`, an optional background sub-layer payload, advance width, and
the opaque shape payload. -/
structure GSLayerM where
  layerId : String
  name : Option String
  associatedMasterId : String
  braceCoordinates : Option (List Val)
  smartComponentPoleMapping : List (String × Pole)
  userData : List (String × String)
  background : Option Nat
  width : Val
  shape : Nat
  deriving DecidableEq, Repr

/-- A native `GSGlyph` (a freshly constructed placeholder has no name). -/
structure GSGlyphM where
  glyphname : Option String
  layers : List GSLayerM
  smartComponentAxes : List SmartAxisM
  color : Option Int
  unicodes : List String
  deriving DecidableEq, Repr

/-- Fontra `GlyphAxis`. -/
structure GlyphAxisM where
  name : String
  minValue : Val
  defaultValue : Val
  maxValue : Val
  deriving DecidableEq, Repr

/-- Fontra `Layer` (the `StaticGlyph` is its advance width plus the opaque
shape payload; `customData` may stash `com.glyphsapp.layer.layerId`). -/
structure FLayerM where
  width : Val
  shape : Nat
  customData : List (String × String)
  deriving DecidableEq, Repr

/-- Fontra `GlyphSource`. -/
structure GlyphSourceM where
  name : String
  location : Loc
  layerName : String
  locationBase : Option String
  customData : List (String × String)
  deriving DecidableEq, Repr

/-- Fontra `VariableGlyph`. -/
structure VariableGlyphM where
  name : String
  axes : List GlyphAxisM
  sources : List GlyphSourceM
  layers : List (String × FLayerM)
  customData : List (String × Int)
  deriving DecidableEq, Repr

/-- A native master record (identifier and display name). -/
structure MasterM where
  id : String
  name : String
  deriving DecidableEq, Repr

/-- `locationToTuple` (fontra.core.varutils, used for the exact-match master
index): the location's items sorted by axis name. Axis names are unique, so
sorting pairs lexicographically, as Python does, orders by name alone. -/
def locationToTuple (loc : Loc) : List (String × Val) :=
  sortByLe (fun a b => strLeB a.1 b.1) loc

/-- The backend state `_setupFromPath` derives from the native font: design
axis names in order, the source-space default location, the master list and
the two master-location indices. -/
structure FontM where
  formatVersion : Nat
  axes : List String
  masters : List MasterM
  locationByMasterID : List (String × Loc)
  masterIDByLocationTuple : List (List (String × Val) × String)
  defaultLocation : Loc
  deriving DecidableEq, Repr

/-- The master-location tables of `_setupFromPath` (backend.py lines
147-155): each master's dense design location keyed by id, and the inverse
exact-match index keyed by the sorted location tuple (later masters
overwrite earlier ones at the same tuple, as Python dict assignment does). -/
def mkFontM (formatVersion : Nat) (axisDefaults : List (String × Val))
    (masters : List (MasterM × Loc)) : FontM :=
  { formatVersion := formatVersion
    axes := axisDefaults.map (·.1)
    masters := masters.map (·.1)
    locationByMasterID := masters.foldl (fun acc ml => aSet acc ml.1.id ml.2) []
    masterIDByLocationTuple :=
      masters.foldl (fun acc ml => aSet acc (locationToTuple ml.2) ml.1.id) []
    defaultLocation := axisDefaults }

/-- Modelled from the spec: `makeSparseLocation` (fontra.core.varutils,
outside this repository) — a sparse location omits the entries equal to the
default (spec §3); iteration-order differences are unobservable because the
modelled code compares locations as dicts. -/
def makeSparseLocation (location defaults : Loc) : Loc :=
  location.filter fun kv => decide (aGet defaults kv.1 ≠ some kv.2)

/-- Modelled from the spec: `makeDenseLocation` (fontra.core.varutils,
outside this repository) — every axis of the default map gets an explicit
value (spec §3). -/
def makeDenseLocation (location defaults : Loc) : Loc :=
  defaults.map fun kv => (kv.1, (aGet location kv.1).getD kv.2)

/-- `splitLocation` (utils.py): pure partition of a location by membership
of the axis name in the glyph's local axis set. -/
def splitLocation (location : Loc) (glyphAxes : List GlyphAxisM) : Loc × Loc :=
  let glyphAxisNames := glyphAxes.map (·.name)
  (location.filter fun kv => ¬ glyphAxisNames.contains kv.1,
   location.filter fun kv => glyphAxisNames.contains kv.1)

/-- `disambiguateLocalAxisName` (backend.py). -/
def disambiguateLocalAxisName (axisName : String) (globalAxisNames : List String) :
    String :=
  if globalAxisNames.contains axisName then axisName ++ " (local)" else axisName

/-- `gsLocalAxesToFontraLocalAxes` (backend.py): the glyph's smart axes with
the default taken from the first layer's pole mapping. Indexing `layers[0]`
raises on a glyph without layers; a missing pole entry raises `KeyError`. -/
def gsLocalAxesToFontraLocalAxes (g : GSGlyphM) : Except PyErr (List GlyphAxisM) :=
  match g.layers with
  | [] => throw .indexError
  | l0 :: _ =>
    g.smartComponentAxes.mapM fun axis =>
      match aGet l0.smartComponentPoleMapping axis.name with
      | none => throw (.keyError axis.name)
      | some p =>
        pure ⟨axis.name, axis.bottomValue,
          if p = Pole.MIN then axis.bottomValue else axis.topValue, axis.topValue⟩

/-- `_getBraceLayerLocation` (backend.py): empty unless the layer carries
brace coordinates, which are zipped against the ordered axis list (`zip`
truncates at the shorter list, as in Python). -/
def getBraceLayerLocation (F : FontM) (l : GSLayerM) : Loc :=
  match l.braceCoordinates with
  | none => []
  | some coords => F.axes.zip coords

/-- `_getSmartLocation` (backend.py): map each pole to the axis's min/max,
keep only values different from the axis default, and disambiguate names
that clash with font axis names. -/
def getSmartLocation (F : FontM) (localAxesByName : List (String × GlyphAxisM))
    (l : GSLayerM) : Except PyErr Loc := do
  let location ← l.smartComponentPoleMapping.mapM fun np =>
    match aGet localAxesByName np.1 with
    | none => throw (PyErr.keyError np.1)
    | some ax =>
      pure (np.1, if np.2 = Pole.MIN then ax.minValue else ax.maxValue)
  pure ((location.filter fun nv =>
      match aGet localAxesByName nv.1 with
      | some ax => decide (nv.2 ≠ ax.defaultValue)
      | none => false).map
    fun nv => (disambiguateLocalAxisName nv.1 F.axes, nv.2))

/-- `gsLayerToFontraLayer` (backend.py) at the modelled granularity: the
shape payload and width become the static glyph; when a layer id is given
it is stashed under `com.glyphsapp.layer.layerId`. -/
def gsLayerToFontraLayer (shape : Nat) (gsLayerWidth : Val)
    (gsLayerId : Option String) : FLayerM :=
  { width := gsLayerWidth, shape := shape,
    customData :=
      match gsLayerId with
      | some i => [("com.glyphsapp.layer.layerId", i)]
      | none => [] }

/-! ## fixSourceLocations

The Python builds `sets : locItem -> set of source indices`, groups the
items by `tuple(sorted(indices))` (`reverseSets`), keeps the groups with
more than one item (`matches`) and deletes every matched item whose axis is
not a smart axis name from every source holding it. The model computes the
same deletion set directly: an item is deleted exactly when its axis is not
a smart axis and at least one other item is held by exactly the same set of
sources. -/

/-- Every `(axis, value)` item over the sources, first occurrence first
(the key set of the `sets` defaultdict). -/
def allLocItems (sources : List GlyphSourceM) : List (String × Val) :=
  dedupFirst (sources.flatMap (·.location))

/-- The ascending indices of the sources whose location holds `item`
(`tuple(sorted(sets[item]))`). -/
def itemSourceIndices (sources : List GlyphSourceM) (item : String × Val) :
    List Nat :=
  (sources.enum.filter fun p => decide (item ∈ p.2.location)).map (·.1)

/-- The items `fixSourceLocations` deletes. -/
def locItemsToDelete (sources : List GlyphSourceM) (smartAxisNames : List String) :
    List (String × Val) :=
  (allLocItems sources).filter fun item =>
    !smartAxisNames.contains item.1 &&
      decide (1 < ((allLocItems sources).filter fun item2 =>
        decide (itemSourceIndices sources item2 = itemSourceIndices sources item)).length)

/-- `fixSourceLocations` (backend.py): delete each matched non-smart item
from every source whose location holds it. -/
def fixSourceLocations (sources : List GlyphSourceM) (smartAxisNames : List String) :
    List GlyphSourceM :=
  let toDelete := locItemsToDelete sources smartAxisNames
  sources.map fun s =>
    { s with location := s.location.filter fun kv => decide (kv ∉ toDelete) }

/-! ## getGlyph (read direction) -/

/-- The per-layer loop state of `getGlyph`: the locations already seen, the
sources and layers built so far, and the last layer's smart location (the
Python loop variable that line 609 reads after the loop). -/
structure ReadAcc where
  seenLocations : List Loc
  sources : List GlyphSourceM
  layers : List (String × FLayerM)
  lastSmartLocation : Option Loc
  deriving DecidableEq, Repr

/-- `assert gsLayer.associatedMasterId` plus the stable re-sort of the
layers by first-seen associated master (backend.py lines 546-557): Python's
stable sort on the master-rank key is exactly grouping by master in
first-seen order, keeping the relative order within each group. -/
def sortGSLayers (layers : List GSLayerM) : Except PyErr (List GSLayerM) :=
  if layers.all fun l => decide (l.associatedMasterId ≠ "") then
    let seenMasterIDs := dedupFirst (layers.map (·.associatedMasterId))
    pure (seenMasterIDs.flatMap fun m =>
      layers.filter fun l => decide (l.associatedMasterId = m))
  else throw .assertionError

/-- The merged design-space location of a native layer (backend.py lines
572-579): sparse master location, overridden by brace coordinates,
overridden by the smart location. -/
def layerMergedLocation (F : FontM) (localAxesByName : List (String × GlyphAxisM))
    (l : GSLayerM) : Except PyErr Loc := do
  let braceLocation := getBraceLayerLocation F l
  let smartLocation ← getSmartLocation F localAxesByName l
  match aGet F.locationByMasterID l.associatedMasterId with
  | none => throw (PyErr.keyError l.associatedMasterId)
  | some masterLoc =>
    pure (aMerge (aMerge (makeSparseLocation masterLoc F.defaultLocation)
      braceLocation) smartLocation)

/-- The shadow-layer key a duplicate-location layer is renamed to
(backend.py line 583, an f-string over the optional native name). -/
def shadowLayerName (l : GSLayerM) : String :=
  l.associatedMasterId ++ "^" ++ pyShowOptStr l.name

/-- The per-layer values the loop body computes before branching on the
duplicate-location check (backend.py lines 561-579). -/
structure LayerReadFacts where
  smartLocation : Loc
  masterName : String
  sourceName : String
  layerName0 : String
  location : Loc
  deriving DecidableEq, Repr

/-- Lines 561-579 of the `getGlyph` layer loop: brace and smart locations,
master name, source display name, normalized layer name, merged location. -/
def readLayerFacts (F : FontM) (localAxesByName : List (String × GlyphAxisM))
    (l : GSLayerM) : Except PyErr LayerReadFacts := do
  let braceLocation := getBraceLayerLocation F l
  let smartLocation ← getSmartLocation F localAxesByName l
  let masterName ←
    match aGet (F.masters.map fun m => (m.id, m.name)) l.associatedMasterId with
    | none => throw (PyErr.keyError l.associatedMasterId)
    | some n => pure n
  let sourceName :=
    match aGet l.userData "xyz.fontra.source-name" with
    | some sn => sn
    | none =>
      if braceLocation ≠ [] ∨ smartLocation ≠ [] then
        masterName ++ " / " ++ pyShowOptStr l.name
      else pyOrStr l.name masterName
  let layerName0 := pyOrStr (aGet l.userData "xyz.fontra.layer-name") l.layerId
  match aGet F.locationByMasterID l.associatedMasterId with
  | none => throw (PyErr.keyError l.associatedMasterId)
  | some masterLoc =>
    pure ⟨smartLocation, masterName, sourceName, layerName0,
      aMerge (aMerge (makeSparseLocation masterLoc F.defaultLocation)
        braceLocation) smartLocation⟩

/-- Lines 581-607 of the `getGlyph` layer loop: a duplicate location makes
the layer a shadow layer (renamed, original id stashed, no new source); a
fresh location appends a source and a seen location. -/
def applyReadLayer (acc : ReadAcc) (l : GSLayerM) (f : LayerReadFacts) : ReadAcc :=
  if dictMem f.location acc.seenLocations then
    let layerName := shadowLayerName l
    let layers1 := aSet acc.layers layerName
      (gsLayerToFontraLayer l.shape l.width (some l.layerId))
    let layers2 :=
      match l.background with
      | some bg =>
        aSet layers1 (layerName ++ "/" ++ "background")
          (gsLayerToFontraLayer bg l.width none)
      | none => layers1
    { acc with layers := layers2, lastSmartLocation := some f.smartLocation }
  else
    let storeLayerId := decide (f.layerName0 ≠ l.layerId)
    let sources' := acc.sources ++
      [{ name := f.sourceName, location := f.location, layerName := f.layerName0,
         locationBase := none, customData := [] }]
    let layers1 := aSet acc.layers f.layerName0
      (gsLayerToFontraLayer l.shape l.width
        (if storeLayerId then some l.layerId else none))
    let layers2 :=
      match l.background with
      | some bg =>
        aSet layers1 (f.layerName0 ++ "^" ++ "background")
          (gsLayerToFontraLayer bg l.width none)
      | none => layers1
    { seenLocations := acc.seenLocations ++ [f.location], sources := sources',
      layers := layers2, lastSmartLocation := some f.smartLocation }

/-- One iteration of the `getGlyph` layer loop (backend.py lines 560-607). -/
def readLayerStep (F : FontM) (localAxesByName : List (String × GlyphAxisM))
    (acc : ReadAcc) (l : GSLayerM) : Except PyErr ReadAcc :=
  (readLayerFacts F localAxesByName l).map (applyReadLayer acc l)

/-- The sorted layer enumeration folded through the loop body
(backend.py lines 546-607). -/
def readLayersAcc (F : FontM) (localAxesByName : List (String × GlyphAxisM))
    (layers : List GSLayerM) : Except PyErr ReadAcc := do
  let sorted ← sortGSLayers layers
  sorted.foldlM (readLayerStep F localAxesByName) ⟨[], [], [], none⟩

/-- The whole per-glyph conversion of `getGlyph` (backend.py lines 537-618),
given the backend state and a parsed native glyph. -/
def readGSGlyph (F : FontM) (glyphName : String) (g : GSGlyphM) :
    Except PyErr VariableGlyphM := do
  let customData : List (String × Int) :=
    match g.color with
    | some c => [("com.glyphsapp.glyph-color", c)]
    | none => []
  let localAxes ← gsLocalAxesToFontraLocalAxes g
  let localAxesByName := localAxes.map fun a => (a.name, a)
  let acc ← readLayersAcc F localAxesByName g.layers
  let smartKeys ←
    match acc.lastSmartLocation with
    | none => throw (PyErr.nameError "smartLocation")
    | some sl => pure (aKeys sl)
  pure { name := glyphName, axes := localAxes,
         sources := fixSourceLocations acc.sources smartKeys,
         layers := acc.layers, customData := customData }

/-! ## putGlyph (write direction) -/

/-- The layer keys that carry the primary layer name `k` as a `^`-prefix
(the per-source list comprehension of `getSourceLayerNames`). -/
def ownedLayerKeys (vg : VariableGlyphM) (k : String) : List String :=
  (aKeys vg.layers).filter fun ln => strStartsWith ln (k ++ "^")

/-- `getSourceLayerNames` (backend.py): the dict from each source's layer
name to the layer keys carrying it as a `^`-prefix, together with the whole
set of source-owned layer names. The assert loops reduce to the check that
every source's layer name is a key of `layers` (the dict's keys are exactly
the sources' layer names and the suffix lists are filtered from `layers`). -/
def getSourceLayerNames (vg : VariableGlyphM) :
    Except PyErr (List (String × List String) × List String) :=
  let sourceLayers := vg.sources.foldl
    (fun acc src => aSet acc src.layerName (ownedLayerKeys vg src.layerName)) []
  if vg.sources.all (fun src => aHasKey vg.layers src.layerName) then
    .ok (sourceLayers, aKeys sourceLayers ++ sourceLayers.flatMap (·.2))
  else .error .assertionError

/-- `getDefaultLocation` (backend.py). -/
def getDefaultLocation (axes : List GlyphAxisM) : Loc :=
  axes.map fun a => (a.name, a.defaultValue)

/-- The message `setupSmartComponentAxes` raises for a glyph axis whose
default is not at MIN or MAX. -/
def glyphAxisDefaultErrMsg (name : String) : String :=
  "GlyphsApp Backend: Glyph axis '" ++ name ++ "' defaultValue must be at MIN or MAX."

/-- Whether a glyph axis violates the native default-at-bound constraint. -/
def glyphAxisViolatesDefault (axis : GlyphAxisM) : Bool :=
  decide (axis.defaultValue ≠ axis.minValue) && decide (axis.defaultValue ≠ axis.maxValue)

/-- `setupSmartComponentAxes` (backend.py): build the native smart axes,
failing on the first axis whose default is not at MIN or MAX. -/
def setupSmartComponentAxes (vg : VariableGlyphM) : Except PyErr (List SmartAxisM) :=
  vg.axes.mapM fun axis =>
    if glyphAxisViolatesDefault axis then
      .error (.backendError (glyphAxisDefaultErrMsg axis.name))
    else .ok ⟨axis.name, axis.minValue, axis.maxValue⟩

/-- `_getSourceLocation` (backend.py): the `locationBase` master's location
(KeyError on an unknown master id) overridden by the explicit location. -/
def getSourceLocation (F : FontM) (src : GlyphSourceM) : Except PyErr Loc :=
  match src.locationBase with
  | none => .ok (aMerge [] src.location)
  | some base =>
    match aGet F.locationByMasterID base with
    | none => .error (.keyError base)
    | some loc => .ok (aMerge loc src.location)

/-- `_getSourceLocations` (backend.py): resolve, split by glyph-axis
membership, densify each half against its default map. -/
def getSourceLocations (F : FontM) (glyphAxes : List GlyphAxisM)
    (defaultGlyphLocation : Loc) (src : GlyphSourceM) : Except PyErr (Loc × Loc) := do
  let location ← getSourceLocation F src
  let p := splitLocation location glyphAxes
  pure (makeDenseLocation p.1 F.defaultLocation,
    makeDenseLocation p.2 defaultGlyphLocation)

/-- The per-source information `_setupSourceInfo` computes. -/
structure SourceInfoM where
  fontLocation : Loc
  glyphLocation : Loc
  masterId : Option String
  masterName : Option String
  isBraceLayer : Bool
  isSmartComponentLayer : Bool
  associatedMasterId : String
  associatedMasterName : String
  deriving DecidableEq, Repr

/-- Manhattan distance between a dense location and a master location. -/
def manhattanDist (a b : Loc) : Val :=
  (b.map fun kv => |(aGet a kv.1).getD 0 - kv.2|).sum

/-- Modelled from the spec: `_findNearestMasterId` calls
`findNearestLocationIndex` (fontra.core, outside this repository), a
Manhattan-distance nearest-neighbor search over the master locations,
first index on ties (spec §4.1); `none` when there are no masters. -/
def findNearestMasterId (F : FontM) (fontLocation : Loc) : Option String :=
  match F.locationByMasterID with
  | [] => none
  | first :: rest =>
    some (rest.foldl
      (fun best cand =>
        if manhattanDist fontLocation cand.2 < manhattanDist fontLocation best.2
        then cand else best)
      first).1

/-- The error `_setupSourceInfo` raises for a brace layer in a glyph with
local axes. -/
def braceInSmartErrMsg : String :=
  "GlyphsApp Backend: Brace layers within smart glyphs are not yet implemented."

/-- `_setupSourceInfo` (backend.py lines 782-818). -/
def setupSourceInfo (F : FontM) (vg : VariableGlyphM) (defaultGlyphLocation : Loc)
    (src : GlyphSourceM) : Except PyErr SourceInfoM := do
  let locs ← getSourceLocations F vg.axes defaultGlyphLocation src
  let fontLocation := locs.1
  let glyphLocation := locs.2
  let masterId := aGet F.masterIDByLocationTuple (locationToTuple fontLocation)
  let masterName ←
    match masterId with
    | none => pure none
    | some mid =>
      match aGet (F.masters.map fun m => (m.id, m.name)) mid with
      | none => throw (PyErr.keyError mid)
      | some n => pure (some n)
  if masterId.isNone && !vg.axes.isEmpty then
    throw (PyErr.notImplementedError braceInSmartErrMsg)
  else
    match pyOrOpt (pyOrOpt masterId
        (aGet src.customData "com.glyphsapp.layer.associatedMasterId"))
        (findNearestMasterId F fontLocation) with
    | none => throw PyErr.indexError
    | some amid =>
      match aGet (F.masters.map fun m => (m.id, m.name)) amid with
      | none => throw (PyErr.keyError amid)
      | some amName =>
        pure ⟨fontLocation, glyphLocation, masterId, masterName, masterId.isNone,
          !dictBeq glyphLocation defaultGlyphLocation, amid, amName⟩

/-- `getLayerId` (backend.py lines 959-974): stashed id, else the suggested
id, else the layer name itself when it is UUID-shaped, else the
deterministic SHA-1 based id. -/
def getLayerId (vg : VariableGlyphM) (layerName : String)
    (suggestedLayerId : Option String) : Except PyErr String :=
  match aGet vg.layers layerName with
  | none => .error (.keyError layerName)
  | some layer =>
    let layerId :=
      match aGet layer.customData "com.glyphsapp.layer.layerId" with
      | none => suggestedLayerId
      | some v => some v
    match layerId with
    | some i => .ok i
    | none =>
      .ok (if isGlyphsUUID layerName then layerName
        else glyphsLayerIdHash vg.name layerName)

/-- Python `sep.join(l)`. -/
def joinWith (sep : String) : List String → String
  | [] => ""
  | [s] => s
  | s :: rest => s ++ sep ++ joinWith sep rest

/-- `makeIntIfInt` composed with `str` (backend.py): integers print as
integers; the non-integer case prints a float in Python, which the
rational model renders as `num/den` (no modelled claim evaluates it). -/
def makeIntIfIntStr (v : Val) : String :=
  if v.den = 1 then intToStr v.num
  else intToStr v.num ++ "/" ++ natToStr v.den

/-- `getBraceLayerName` (backend.py): the brace-coordinate values joined
with commas inside braces. -/
def getBraceLayerName (location : Loc) : String :=
  "\x7b" ++ joinWith "," (location.map fun kv => makeIntIfIntStr kv.2) ++ "\x7d"

/-- The per-layer information `setupLayerInfo` computes. -/
structure LayerInfoM where
  isMainLayer : Bool
  isBackgroundLayer : Bool
  gsLayerName : Option String
  gsLayerId : String
  shouldStoreFontraSourceName : Bool
  shouldStoreFontraLayerName : Bool
  deriving DecidableEq, Repr

/-- The error raised for an extra non-background layer on a brace layer. -/
def braceExtraLayerErrMsg : String :=
  "A brace layer can only have an additional source layer named 'background'"

/-- `setupLayerInfo` (backend.py lines 907-956). -/
def setupLayerInfo (glyphSource : GlyphSourceM) (sourceInfo : SourceInfoM)
    (layerName : String) (vg : VariableGlyphM) (gsGlyph : GSGlyphM) :
    Except PyErr LayerInfoM := do
  let isMainLayer := layerName == glyphSource.layerName
  let shouldStore0 := decide (glyphSource.name ≠ sourceInfo.associatedMasterName)
  if isMainLayer then do
    let nameId ←
      if sourceInfo.isSmartComponentLayer then do
        let lid ← getLayerId vg layerName none
        pure (some glyphSource.name, lid)
      else do
        let lid ← getLayerId vg layerName sourceInfo.masterId
        pure (if sourceInfo.isBraceLayer then
            some (getBraceLayerName sourceInfo.fontLocation)
          else sourceInfo.masterName, lid)
    let adjusted :=
      if strHasSub glyphSource.name " / " then
        match strSplitFirst glyphSource.name " / " with
        | some ms =>
          if ms.1 = sourceInfo.associatedMasterName then (some ms.2, false)
          else (nameId.1, shouldStore0)
        | none => (nameId.1, shouldStore0)
      else (nameId.1, shouldStore0)
    pure ⟨true, adjusted.1.isNone, adjusted.1, nameId.2, adjusted.2, true⟩
  else
    match strSplitFirst layerName "^" with
    | none => throw (PyErr.valueError layerName)
    | some parts =>
      let localLayerName := parts.2
      if localLayerName = "background" ∨ strEndsWith localLayerName "/background" then do
        let baseLayerName := strDropRight layerName 11
        let lid ← getLayerId vg baseLayerName
          (if localLayerName = "background" then sourceInfo.masterId else none)
        pure ⟨false, true, none, lid, shouldStore0, true⟩
      else do
        let lid ← getLayerId vg layerName none
        if !(gsGlyph.layers.any fun gl => gl.layerId == lid) &&
            sourceInfo.isBraceLayer then
          throw (PyErr.backendError braceExtraLayerErrMsg)
        else
          pure ⟨false, false, some localLayerName, lid, shouldStore0, false⟩

/-- A freshly constructed `GSLayer()` (glyphsLib defaults: width 600,
empty everything). -/
def defaultGSLayer (lid : String) : GSLayerM :=
  { layerId := lid, name := none, associatedMasterId := "",
    braceCoordinates := none, smartComponentPoleMapping := [], userData := [],
    background := none, width := 600, shape := 0 }

/-- `getOrCreateGSLayer` (backend.py): find the layer by id, else append a
fresh one. -/
def getOrCreateGSLayer (g : GSGlyphM) (lid : String) : GSGlyphM × GSLayerM :=
  match g.layers.find? (fun l => l.layerId == lid) with
  | some l => (g, l)
  | none =>
    let nl := defaultGSLayer lid
    ({ g with layers := g.layers ++ [nl] }, nl)

/-- Replace the layer with the given id (layer ids are unique in a glyph). -/
def setGSLayerById (g : GSGlyphM) (lid : String) (l' : GSLayerM) : GSGlyphM :=
  { g with layers := g.layers.map fun l => if l.layerId = lid then l' else l }

/-- The error `setupPoleMapping` raises for an intermediate glyph-axis
value. -/
def intermediateErrMsg : String :=
  "Intermediate layers within smart glyphs are not yet implemented"

/-- `setupPoleMapping` (backend.py lines 1351-1368). -/
def setupPoleMapping (glyphAxes : List GlyphAxisM) (location : Loc) :
    Except PyErr (List (String × Pole)) :=
  glyphAxes.mapM fun axis =>
    match aGet location axis.name with
    | none => throw (PyErr.keyError axis.name)
    | some v =>
      if v ≠ axis.minValue ∧ v ≠ axis.maxValue then
        throw (PyErr.notImplementedError intermediateErrMsg)
      else pure (axis.name, if axis.minValue = v then Pole.MIN else Pole.MAX)

/-- `storeInDict` (backend.py). -/
def storeInDict (d : List (String × String)) (key value : String) (doStore : Bool) :
    List (String × String) :=
  if doStore then aSet d key value else aDel d key

/-- `updateGSLayer` followed by `fontraLayerToGSLayer` (backend.py lines
987-1020 and 1371-1385): a background target receives the shape payload
into the base layer's background sub-record (its width is not persisted);
a foreground target receives name, associated master, pole mapping when the
glyph has local axes, the stashed user-data entries, and the content. -/
def updateGSLayerAndWrite (vg : VariableGlyphM) (layerName : String)
    (glyphSource : GlyphSourceM) (gsGlyph : GSGlyphM) (gsLayer : GSLayerM)
    (sourceInfo : SourceInfoM) (layerInfo : LayerInfoM) (content : FLayerM) :
    Except PyErr GSGlyphM := do
  if layerInfo.isBackgroundLayer then
    pure (setGSLayerById gsGlyph gsLayer.layerId
      { gsLayer with background := some content.shape })
  else do
    let poleMapping ←
      if layerInfo.isMainLayer && !vg.axes.isEmpty then do
        let pm ← setupPoleMapping vg.axes sourceInfo.glyphLocation
        pure (some pm)
      else pure none
    let userData1 := storeInDict gsLayer.userData "xyz.fontra.layer-name" layerName
      (decide (layerName ≠ layerInfo.gsLayerId) && layerInfo.shouldStoreFontraLayerName)
    let userData2 := storeInDict userData1 "xyz.fontra.source-name" glyphSource.name
      (decide (glyphSource.name ≠ "") && layerInfo.shouldStoreFontraSourceName)
    pure (setGSLayerById gsGlyph gsLayer.layerId
      { gsLayer with
        name := layerInfo.gsLayerName,
        associatedMasterId := sourceInfo.associatedMasterId,
        smartComponentPoleMapping :=
          match poleMapping with
          | some pm => pm
          | none => gsLayer.smartComponentPoleMapping,
        userData := userData2,
        width := content.width,
        shape := content.shape })

/-- Accumulator of the per-source write loop. -/
structure WriteAcc where
  gsGlyph : GSGlyphM
  layerIdsInUse : List String
  deriving DecidableEq, Repr

/-- The body of the inner layer loop of `_variableGlyphToGSGlyph`
(backend.py lines 752-776). -/
def processLayer (vg : VariableGlyphM) (glyphSource : GlyphSourceM)
    (sourceInfo : SourceInfoM) (acc : WriteAcc) (layerName : String) :
    Except PyErr WriteAcc := do
  match aGet vg.layers layerName with
  | none => throw PyErr.assertionError
  | some content => do
    let layerInfo ← setupLayerInfo glyphSource sourceInfo layerName vg acc.gsGlyph
    let created := getOrCreateGSLayer acc.gsGlyph layerInfo.gsLayerId
    let inUse := acc.layerIdsInUse ++ [layerInfo.gsLayerId]
    let g2 ← updateGSLayerAndWrite vg layerName glyphSource created.1 created.2
      sourceInfo layerInfo content
    let g3 :=
      if sourceInfo.isBraceLayer then
        { g2 with layers := g2.layers.map fun l =>
            if l.layerId = layerInfo.gsLayerId then
              { l with braceCoordinates := some (sourceInfo.fontLocation.map (·.2)) }
            else l }
      else g2
    pure ⟨g3, inUse⟩

/-- The body of the outer source loop of `_variableGlyphToGSGlyph`
(backend.py lines 743-776). -/
def processSource (F : FontM) (vg : VariableGlyphM)
    (sourceLayers : List (String × List String)) (defaultGlyphLocation : Loc)
    (acc : WriteAcc) (glyphSource : GlyphSourceM) : Except PyErr WriteAcc := do
  let sourceInfo ← setupSourceInfo F vg defaultGlyphLocation glyphSource
  match aGet sourceLayers glyphSource.layerName with
  | none => throw (PyErr.keyError glyphSource.layerName)
  | some extra =>
    (glyphSource.layerName :: sortStrings extra).foldlM
      (processLayer vg glyphSource sourceInfo) acc

/-- The error `_variableGlyphToGSGlyph` raises for a layer not owned by any
source. -/
def layerWithoutSourceMsg : String :=
  "GlyphsApp Backend: Layer without glyph source is not supported."

/-- `_variableGlyphToGSGlyph` (backend.py lines 728-780): validate the
layer names, rebuild the smart axes, process every source, then
garbage-collect the native layers that were not touched. -/
def variableGlyphToGSGlyph (F : FontM) (vg : VariableGlyphM) (gsGlyph0 : GSGlyphM) :
    Except PyErr GSGlyphM := do
  let sl ← getSourceLayerNames vg
  let nonSourceLayerNames := (aKeys vg.layers).filter fun k => !sl.2.contains k
  if nonSourceLayerNames ≠ [] then throw (PyErr.backendError layerWithoutSourceMsg)
  else do
    let defaultGlyphLocation := getDefaultLocation vg.axes
    let smartAxes ← setupSmartComponentAxes vg
    let accF ← vg.sources.foldlM
      (processSource F vg sl.1 defaultGlyphLocation)
      ⟨{ gsGlyph0 with smartComponentAxes := smartAxes }, []⟩
    pure { accF.gsGlyph with
      layers := accF.gsGlyph.layers.filter fun l =>
        accF.layerIdsInUse.contains l.layerId }

/-! ## Backend state and the public glyph operations -/

/-- The per-font mutable state the glyph operations touch: the glyph map,
`gsFont.glyphs` (placeholders have no name until parsed), the raw glyph
records (modelled at glyph-object granularity: the structured document
serializer/parser round trip is the identity on the object model), and the
lazy-expansion cache. -/
structure BackendStateM where
  glyphMap : List (String × List Nat)
  gsGlyphs : List GSGlyphM
  rawGlyphs : List GSGlyphM
  parsedGlyphNames : List String
  deriving DecidableEq, Repr

/-- `_ensureGlyphIsParsed`, at the modelled granularity: copy the raw
record into `gsFont.glyphs` at the glyph's index and record it as parsed.
The recursive component-dependency expansion only parses further glyphs and
never changes the requested one, so it is not modelled. -/
def ensureGlyphIsParsed (st : BackendStateM) (glyphName : String) : BackendStateM :=
  if st.parsedGlyphNames.contains glyphName then st
  else
    { st with
      parsedGlyphNames := st.parsedGlyphNames ++ [glyphName],
      gsGlyphs := (st.rawGlyphs.zip st.gsGlyphs).map fun p =>
        if p.1.glyphname == some glyphName then p.1 else p.2 }

/-- `getGlyph` (backend.py lines 529-618): `none` for an unknown name, else
parse on demand and convert. -/
def getGlyphM (F : FontM) (st : BackendStateM) (glyphName : String) :
    Except PyErr (Option VariableGlyphM) × BackendStateM :=
  if st.rawGlyphs.any (fun g => g.glyphname == some glyphName) = false then
    (.ok none, st)
  else
    let st1 := ensureGlyphIsParsed st glyphName
    match st1.gsGlyphs.find? (fun g => g.glyphname == some glyphName) with
    | none => (.error (.keyError glyphName), st1)
    | some gsGlyph =>
      match readGSGlyph F glyphName gsGlyph with
      | .error e => (.error e, st1)
      | .ok vg => (.ok (some vg), st1)

/-- An empty freshly constructed `GSGlyph(glyphName)`. -/
def freshGSGlyph (glyphName : String) : GSGlyphM :=
  { glyphname := some glyphName, layers := [], smartComponentAxes := [],
    color := none, unicodes := [] }

/-- `_putGlyph` (backend.py lines 690-726): asserts, glyph-map update,
create-if-new, rebuild through `_variableGlyphToGSGlyph`, hex-format the
code points, splice the raw record back and invalidate the parse cache.
On an exception the raw records and the on-disk data stay untouched. -/
def putGlyphM (F : FontM) (st : BackendStateM) (glyphName : String)
    (glyph : VariableGlyphM) (codePoints : List Nat) :
    Except PyErr Unit × BackendStateM :=
  if glyph.sources.all (fun src => aHasKey glyph.layers src.layerName) = false then
    (.error .assertionError, st)
  else
    let st1 := { st with glyphMap := aSet st.glyphMap glyphName codePoints }
    let isNewGlyph := st1.gsGlyphs.any (fun g => g.glyphname == some glyphName) = false
    let st2 :=
      if isNewGlyph then
        { st1 with gsGlyphs := st1.gsGlyphs ++ [freshGSGlyph glyphName] }
      else st1
    match st2.gsGlyphs.find? (fun g => g.glyphname == some glyphName) with
    | none => (.error (.keyError glyphName), st2)
    | some gsGlyph0 =>
      match variableGlyphToGSGlyph F glyph gsGlyph0 with
      | .error e => (.error e, st2)
      | .ok gsGlyph1 =>
        let gsGlyph2 := { gsGlyph1 with unicodes := codePoints.map natToHex4 }
        let rawGlyphs' :=
          if isNewGlyph then st2.rawGlyphs ++ [gsGlyph2]
          else st2.rawGlyphs.map fun g =>
            if g.glyphname == some glyphName then gsGlyph2 else g
        (.ok (),
          { st2 with
            rawGlyphs := rawGlyphs',
            parsedGlyphNames :=
              st2.parsedGlyphNames.filter fun n => decide (n ≠ glyphName) })

/-- The message of the `KeyError` `deleteGlyph` raises for an unknown name. -/
def deleteGlyphNotFoundMsg (glyphName : String) : String :=
  "Glyph '" ++ glyphName ++ "' does not exist"

/-- `deleteGlyph` (backend.py lines 271-282): `KeyError` for an unknown
name, else remove the glyph from the map, the raw store and the parse
cache (glyph names are unique, so removing by name is removing at the
index). -/
def deleteGlyphM (st : BackendStateM) (glyphName : String) :
    Except PyErr Unit × BackendStateM :=
  if st.rawGlyphs.any (fun g => g.glyphname == some glyphName) = false then
    (.error (.keyError (deleteGlyphNotFoundMsg glyphName)), st)
  else
    let keepPairs := (st.rawGlyphs.zip st.gsGlyphs).filter fun p =>
      decide (p.1.glyphname ≠ some glyphName)
    (.ok (),
      { glyphMap := aDel st.glyphMap glyphName,
        rawGlyphs := keepPairs.map (·.1),
        gsGlyphs := keepPairs.map (·.2),
        parsedGlyphNames := st.parsedGlyphNames.filter fun n =>
          decide (n ≠ glyphName) })

/-! ## Kerning (write direction) -/

/-- Fontra `Kerning`. -/
structure KerningM where
  groupsSide1 : List (String × List String)
  groupsSide2 : List (String × List String)
  sourceIdentifiers : List String
  values : List (String × List (String × List (Option Val)))
  deriving DecidableEq, Repr

/-- A native per-master kerning table: master id → first name → second
name → value. -/
abbrev GSKernTable := List (String × List (String × List (String × Val)))

/-- A kerning pair side. -/
inductive Side where
  | left
  | right
  | top
  | bottom
  deriving DecidableEq, Repr

/-- `GS_KERN_GROUP_PREFIXES` (backend.py). -/
def gsKernGroupPfx : Side → String
  | .left => "@MMK_L_"
  | .right => "@MMK_R_"
  | .top => "@MMK_T_"
  | .bottom => "@MMK_B_"

/-- Which native attribute a kerning write targets (`vertKerning` is the
Glyphs-2 name, `kerningVertical` the Glyphs-3 name of the vertical table). -/
inductive KernAttr where
  | kerning
  | vertKerning
  | kerningVertical
  deriving DecidableEq, Repr

/-- The kerning-related state of the backend: the horizontal table, the
vertical table (under whichever of its two attribute names the format
uses), and the four group maps. -/
structure KernStateM where
  kerning : GSKernTable
  kerningVertical : GSKernTable
  groupsLeft : List (String × List String)
  groupsRight : List (String × List String)
  groupsTop : List (String × List String)
  groupsBottom : List (String × List String)
  deriving DecidableEq, Repr

/-- `setattr(self.gsFont, kerningAttr, …)`. -/
def setKernTable (st : KernStateM) (attr : KernAttr) (t : GSKernTable) : KernStateM :=
  match attr with
  | .kerning => { st with kerning := t }
  | .vertKerning => { st with kerningVertical := t }
  | .kerningVertical => { st with kerningVertical := t }

/-- `self.kerningGroups[side] = …`. -/
def setGroupsSide (st : KernStateM) (side : Side) (g : List (String × List String)) :
    KernStateM :=
  match side with
  | .left => { st with groupsLeft := g }
  | .right => { st with groupsRight := g }
  | .top => { st with groupsTop := g }
  | .bottom => { st with groupsBottom := g }

/-- `self._verticalKerningAttr` (backend.py). -/
def verticalKerningAttr (F : FontM) : KernAttr :=
  if F.formatVersion = 2 then .vertKerning else .kerningVertical

/-- Re-attach the native group marker on write (`gsPrefix + name[1:]` when
the name starts with `@`). -/
def translateGroupNameToGS (name : String) (pfx : String) : String :=
  if strStartsWith name "@" then pfx ++ String.mk (name.data.drop 1) else name

/-- `kerningPerSource[sourceIdentifier][leftName][rightName] = value`. -/
def kpsSet (t : GSKernTable) (sid l r : String) (v : Val) : GSKernTable :=
  let inner := (aGet t sid).getD []
  let lv := (aGet inner l).getD []
  aSet t sid (aSet inner l (aSet lv r v))

/-- The error for a vertical-kerning write on the Glyphs 2 format. -/
def vertKerningGlyphs2Msg : String :=
  "Writing vertical kerning is not supported for the Glyphs 2 format"

/-- The error for unknown kerning source identifiers. -/
def unknownSourceIdsMsg (ids : List String) : String :=
  "Can't write kerning, found unknown source identifiers: " ++
    joinWith ", " (sortStrings ids)

/-- `_fontraKerningToGSKerning` (backend.py lines 416-465): `None` clears
the table and its two group maps; a Glyphs-2 vertical write and unknown
source identifiers fail before any mutation; otherwise the per-master
table is rebuilt (one entry per master, empty when absent) and the group
maps replaced. -/
def fontraKerningToGSKerning (st : KernStateM) (masters : List MasterM)
    (kerning : Option KerningM) (attr : KernAttr) (s1 s2 : Side) :
    Except PyErr Unit × KernStateM :=
  match kerning with
  | none => (.ok (), setGroupsSide (setGroupsSide (setKernTable st attr []) s1 []) s2 [])
  | some k =>
    if attr = .vertKerning then
      (.error (.backendError vertKerningGlyphs2Msg), st)
    else
      let unknown := (dedupFirst k.sourceIdentifiers).filter fun sid =>
        ¬ masters.any fun m => m.id == sid
      if unknown ≠ [] then
        (.error (.backendError (unknownSourceIdsMsg unknown)), st)
      else
        let kps := k.values.foldl
          (fun acc lv =>
            let leftName := translateGroupNameToGS lv.1 (gsKernGroupPfx s1)
            lv.2.foldl
              (fun acc rv =>
                let rightName := translateGroupNameToGS rv.1 (gsKernGroupPfx s2)
                (k.sourceIdentifiers.zip rv.2).foldl
                  (fun acc sv =>
                    match sv.2 with
                    | none => acc
                    | some v => kpsSet acc sv.1 leftName rightName v)
                  acc)
              acc)
          []
        let reordered := masters.map fun m => (m.id, (aGet kps m.id).getD [])
        (.ok (),
          setGroupsSide (setGroupsSide (setKernTable st attr reordered) s1 k.groupsSide1)
            s2 k.groupsSide2)

/-- The error for unsupported kerning table types. -/
def unknownKernTypesMsg (ts : List String) : String :=
  "GlyphsApp Backend: '" ++ joinWith ", " (sortStrings ts) ++
    "' kern type(s) not supported."

/-- `_putKerning` (backend.py lines 354-368): reject unknown table types,
then write the horizontal table, then the vertical one. (The trailing
`_updateKerningGroups` and `_writeFontData` steps touch the raw glyph
records and the file, not the kerning state modelled here.) -/
def putKerningM (F : FontM) (st : KernStateM) (kerning : List (String × KerningM)) :
    Except PyErr Unit × KernStateM :=
  let unknownTypes := (dedupFirst (aKeys kerning)).filter fun t =>
    decide (t ≠ "kern") && decide (t ≠ "vkrn")
  if unknownTypes ≠ [] then
    (.error (.backendError (unknownKernTypesMsg unknownTypes)), st)
  else
    match fontraKerningToGSKerning st F.masters (aGet kerning "kern")
        .kerning .left .right with
    | (.error e, st') => (.error e, st')
    | (.ok _, st') =>
      match fontraKerningToGSKerning st' F.masters (aGet kerning "vkrn")
          (verticalKerningAttr F) .top .bottom with
      | (.error e, st'') => (.error e, st'')
      | (.ok _, st'') => (.ok (), st'')

/-! ## The remaining public put* surface

Each modelled operation mirrors the body of the corresponding `async def`
exactly: `putGlyphMap` is `pass`, the others raise `NotImplementedError`
with their literal message. Argument payloads that the bodies never touch
are polymorphic placeholders. -/

/-- `putGlyphMap` (backend.py lines 268-269): the body is `pass`. -/
def putGlyphMapSurface (_ : List (String × List Nat)) : Except PyErr Unit :=
  .ok ()

/-- `putFontInfo` (backend.py lines 299-302). -/
def putFontInfoSurface {α : Type} (_ : α) : Except PyErr Unit :=
  .error (.notImplementedError
    "GlyphsApp Backend: Editing FontInfo is not yet implemented.")

/-- `putSources` (backend.py lines 307-310). -/
def putSourcesSurface {α : Type} (_ : α) : Except PyErr Unit :=
  .error (.notImplementedError
    "GlyphsApp Backend: Editing FontSources is not yet implemented.")

/-- `putAxes` (backend.py lines 315-318). -/
def putAxesSurface {α : Type} (_ : α) : Except PyErr Unit :=
  .error (.notImplementedError
    "GlyphsApp Backend: Editing Axes is not yet implemented.")

/-- `putUnitsPerEm` (backend.py lines 323-326). -/
def putUnitsPerEmSurface (_ : Nat) : Except PyErr Unit :=
  .error (.notImplementedError
    "GlyphsApp Backend: Editing UnitsPerEm is not yet implemented.")

/-- `putBackgroundImage` (backend.py lines 516-519). -/
def putBackgroundImageSurface {α : Type} (_ : String) (_ : α) : Except PyErr Unit :=
  .error (.notImplementedError
    "GlyphsApp Backend: Editing BackgroundImage is not yet implemented.")

/-- `putCustomData` (backend.py lines 524-527). -/
def putCustomDataSurface {α : Type} (_ : α) : Except PyErr Unit :=
  .error (.notImplementedError
    "GlyphsApp Backend: Editing CustomData is not yet implemented.")

/-! ## Concrete fixtures

Small concrete fonts and glyphs used to evaluate the model at specific
inputs. Each is a legal configuration of the native object model. -/

instance exceptDecEq {ε α : Type} [DecidableEq ε] [DecidableEq α] :
    DecidableEq (Except ε α) := fun a b =>
  match a, b with
  | .error e, .error f =>
    if h : e = f then isTrue (by rw [h])
    else isFalse (by intro hh; injection hh; exact h (by assumption))
  | .ok x, .ok y =>
    if h : x = y then isTrue (by rw [h])
    else isFalse (by intro hh; injection hh; exact h (by assumption))
  | .error _, .ok _ => isFalse (by intro hh; exact Except.noConfusion hh)
  | .ok _, .error _ => isFalse (by intro hh; exact Except.noConfusion hh)

/-- A font with one axis `Weight` (default 100) and one master `MSTR`
named `Regular` at `Weight = 100`. -/
def fontOneMaster : FontM :=
  mkFontM 3 [("Weight", 100)] [(⟨"MSTR", "Regular"⟩, [("Weight", 100)])]

/-- A stray native layer at the master's location whose id `u1` differs
from the master id (as a backup/alternate layer has). -/
def oddLayer : GSLayerM := ⟨"u1", some "odd", "MSTR", none, [], [], none, 500, 1⟩

/-- A glyph `A` whose only layer is the stray layer. -/
def rawOdd : GSGlyphM := ⟨some "A", [oddLayer], [], none, ["0041"]⟩

/-- A parsed-glyph placeholder (`GSGlyph()` before lazy expansion). -/
def placeholderGlyph : GSGlyphM := ⟨none, [], [], none, []⟩

/-- Backend state holding just `rawOdd`, nothing parsed yet. -/
def stOne : BackendStateM := ⟨[("A", [65])], [placeholderGlyph], [rawOdd], []⟩

/-- What the first `getGlyph "A"` on `stOne` returns. -/
def vgOddRead : VariableGlyphM :=
  ⟨"A", [], [⟨"odd", [], "u1", none, []⟩], [("u1", ⟨500, 1, []⟩)], []⟩

/-- The state after that read (the glyph is parsed). -/
def stOneParsed : BackendStateM := ⟨[("A", [65])], [rawOdd], [rawOdd], ["A"]⟩

/-- What `putGlyph "A" vgOddRead` rebuilds: the layer id is replaced by the
master id and the fontra names are stashed in user data. -/
def rawOddRewritten : GSGlyphM :=
  ⟨some "A",
    [⟨"MSTR", some "Regular", "MSTR", none, [],
      [("xyz.fontra.layer-name", "u1"), ("xyz.fontra.source-name", "odd")],
      none, 500, 1⟩],
    [], none, ["0041"]⟩

/-- The state after the write: raw data replaced, parse cache invalidated. -/
def stOneWritten : BackendStateM :=
  ⟨[("A", [65])], [rawOdd], [rawOddRewritten], []⟩

/-- What the second `getGlyph "A"` returns: the same glyph except that the
layer's custom data now stashes the (changed) native layer id. -/
def vgOddReread : VariableGlyphM :=
  ⟨"A", [], [⟨"odd", [], "u1", none, []⟩],
    [("u1", ⟨500, 1, [("com.glyphsapp.layer.layerId", "MSTR")]⟩)], []⟩

/-- A font with axes `Weight` and `Width` (defaults 0) and masters `m2`
(`Regular`, at the default) and `m1` (`Bold`, at `Weight=1, Width=2`). -/
def fontTwoAxes : FontM :=
  mkFontM 3 [("Weight", 0), ("Width", 0)]
    [(⟨"m2", "Regular"⟩, [("Weight", 0), ("Width", 0)]),
     (⟨"m1", "Bold"⟩, [("Weight", 1), ("Width", 2)])]

/-- Smart glyph `S`: master layer of `m2` at the `X` MIN pole, a second
`m2` layer at the MAX pole, and the `m1` master layer at the MAX pole. -/
def rawSmart : GSGlyphM :=
  ⟨some "S",
    [⟨"m2", some "Regular", "m2", none, [("X", .MIN)], [], none, 500, 1⟩,
     ⟨"u1", some "pole", "m2", none, [("X", .MAX)], [], none, 500, 2⟩,
     ⟨"m1", some "Bold", "m1", none, [("X", .MAX)], [], none, 500, 3⟩],
    [⟨"X", 0, 9⟩], none, []⟩

/-- The three sources `getGlyph` derives for `rawSmart`, after
`fixSourceLocations` (which deletes both `("Weight", 1)` and
`("Width", 2)` because they share their source set with each other). -/
def srcSmart0 : GlyphSourceM := ⟨"Regular", [], "m2", none, []⟩

/-- Second derived source of `rawSmart`. -/
def srcSmart1 : GlyphSourceM := ⟨"Regular / pole", [("X", 9)], "u1", none, []⟩

/-- Third derived source of `rawSmart`: its font-axis entries were deleted
by the post-pass, leaving a location equal to `srcSmart1`'s. -/
def srcSmart2 : GlyphSourceM := ⟨"Bold / Bold", [("X", 9)], "m1", none, []⟩

/-- Smart glyph `T` on the one-master font: the master layer at the MIN
poles of its two smart axes, a second layer `u2` at the MAX poles, and a
third layer `u3` back at the MIN poles, whose merged location duplicates
the master source's — so `u3` is the last layer the loop visits, and its
(empty) smart location is what line 609 hands to `fixSourceLocations`. -/
def rawSmartDup : GSGlyphM :=
  ⟨some "T",
    [⟨"MSTR", some "Regular", "MSTR", none,
       [("X", .MIN), ("Y", .MIN)], [], none, 500, 1⟩,
     ⟨"u2", some "poles", "MSTR", none,
       [("X", .MAX), ("Y", .MAX)], [], none, 500, 2⟩,
     ⟨"u3", some "extra", "MSTR", none,
       [("X", .MIN), ("Y", .MIN)], [], none, 500, 3⟩],
    [⟨"X", 0, 10⟩, ⟨"Y", 0, 10⟩], none, []⟩

/-- A shape-only fontra layer used in write-direction fixtures. -/
def flayDemo : FLayerM := ⟨500, 7, []⟩

/-- A glyph with an axis whose default (5) is strictly between min (0) and
max (10), and with a layer `orphan` that belongs to no source. -/
def vgOrphanAndBadAxis : VariableGlyphM :=
  ⟨"B", [⟨"Hght", 0, 5, 10⟩], [⟨"src1", [], "x", none, []⟩],
    [("x", flayDemo), ("orphan", flayDemo)], []⟩

/-- A glyph whose first axis `Wdth` has its default (20) outside [0, 10]
and whose second axis `Hght` has its default (5) strictly between 0 and
10; all layers belong to sources. -/
def vgTwoBadAxes : VariableGlyphM :=
  ⟨"B", [⟨"Wdth", 0, 20, 10⟩, ⟨"Hght", 0, 5, 10⟩], [⟨"src1", [], "x", none, []⟩],
    [("x", flayDemo)], []⟩

/-- A glyph with a layer key `y^z` that is neither a source's layer name
nor a `^`-suffix of one (`x` is the only source layer name). -/
def vgDanglingLayer : VariableGlyphM :=
  ⟨"B", [], [⟨"src1", [], "x", none, []⟩],
    [("x", flayDemo), ("y^z", flayDemo)], []⟩

/-- A glyph with a local axis and a source at `Weight = 166`, which matches
no master of `fontOneMaster` (a brace layer inside a smart glyph). -/
def vgBraceSmart : VariableGlyphM :=
  ⟨"B", [⟨"Hght", 0, 0, 10⟩], [⟨"src1", [("Weight", 166)], "x", none, []⟩],
    [("x", flayDemo)], []⟩

/-- A canonical uppercase UUID string used as a layer name. -/
def uuidName : String := "00112233-4455-6677-8899-AABBCCDDEEFF"

/-- A glyph whose only layer key is the UUID-shaped name, with no stashed
layer id. -/
def vgUuidLayer : VariableGlyphM := ⟨"A", [], [], [(uuidName, flayDemo)], []⟩

/-- A font with one master `M` for the kerning fixtures. -/
def fontKern : FontM := mkFontM 3 [("Weight", 0)] [(⟨"M", "Regular"⟩, [("Weight", 0)])]

/-- A kerning table over the existing master `M` with one value. -/
def kernGood : KerningM := ⟨[], [], ["M"], [("a", [("b", [some 5])])]⟩

/-- A kerning table referencing the unknown master `XX`. -/
def kernBad : KerningM := ⟨[], [], ["XX"], []⟩

/-- Empty kerning state. -/
def kstEmpty : KernStateM := ⟨[], [], [], [], [], []⟩

/-- A `putKerning` payload whose horizontal table is valid and whose
vertical table references an unknown master. -/
def kernInputMixed : List (String × KerningM) := [("kern", kernGood), ("vkrn", kernBad)]

/-! ## Helper lemmas -/

theorem aGet_mem {α β : Type} [DecidableEq α] {d : List (α × β)} {k : α} {v : β}
    (h : aGet d k = some v) : (k, v) ∈ d := by
  induction d with
  | nil => simp [aGet] at h
  | cons hd tl ih =>
    rw [aGet] at h
    by_cases hk : hd.1 = k
    · rw [if_pos hk] at h
      cases hd
      cases h
      simp_all
    · rw [if_neg hk] at h
      exact List.mem_cons_of_mem _ (ih h)

theorem mem_dedupFirst {α : Type} [DecidableEq α] {l : List α} {x : α} :
    x ∈ dedupFirst l ↔ x ∈ l := by
  induction l with
  | nil => simp [dedupFirst]
  | cons hd tl ih =>
    simp only [dedupFirst, List.mem_cons, List.mem_filter]
    constructor
    · rintro (rfl | ⟨hmem, _⟩)
      · exact .inl rfl
      · exact .inr (ih.mp hmem)
    · rintro (rfl | hmem)
      · exact .inl rfl
      · by_cases hx : x = hd
        · exact .inl hx
        · exact .inr ⟨ih.mpr hmem, by simpa using hx⟩

theorem one_lt_length_of_two_mem {α : Type} {l : List α} {x y : α}
    (hx : x ∈ l) (hy : y ∈ l) (hne : x ≠ y) : 1 < l.length := by
  match l with
  | [] => simp at hx
  | [a] =>
    simp only [List.mem_singleton] at hx hy
    exact absurd (hx.trans hy.symm) hne
  | a :: b :: rest => simp only [List.length]; omega

theorem mem_enumFrom_of_mem {α : Type} {l : List α} {a : α} (h : a ∈ l) :
    ∀ n : Nat, ∃ i, (i, a) ∈ l.enumFrom n := by
  induction l with
  | nil => simp at h
  | cons hd tl ih =>
    intro n
    rcases List.mem_cons.mp h with rfl | hmem
    · exact ⟨n, by simp [List.enumFrom]⟩
    · obtain ⟨i, hi⟩ := ih hmem (n + 1)
      exact ⟨i, by simp [List.enumFrom, hi]⟩

theorem mem_of_mem_enumFrom {α : Type} {l : List α} {p : Nat × α} :
    ∀ {n : Nat}, p ∈ l.enumFrom n → p.2 ∈ l := by
  induction l with
  | nil => intro n h; simp [List.enumFrom] at h
  | cons hd tl ih =>
    intro n h
    simp only [List.enumFrom, List.mem_cons] at h
    rcases h with rfl | h
    · exact List.mem_cons_self _ _
    · exact List.mem_cons_of_mem _ (ih h)

theorem aGet_aSet_self {α β : Type} [DecidableEq α] (d : List (α × β)) (k : α) (v : β) :
    aGet (aSet d k v) k = some v := by
  induction d with
  | nil => simp [aSet, aGet]
  | cons hd tl ih =>
    rw [aSet]
    by_cases hk : hd.1 = k
    · rw [if_pos hk, aGet, if_pos rfl]
    · rw [if_neg hk, aGet, if_neg hk]
      exact ih

theorem aGet_aSet_ne {α β : Type} [DecidableEq α] (d : List (α × β)) (k k' : α) (v : β)
    (h : k ≠ k') : aGet (aSet d k v) k' = aGet d k' := by
  induction d with
  | nil => simp [aSet, aGet, h]
  | cons hd tl ih =>
    rw [aSet]
    by_cases hk : hd.1 = k
    · rw [if_pos hk, aGet, if_neg h, aGet, if_neg (hk ▸ h)]
    · rw [if_neg hk, aGet, aGet]
      by_cases hk' : hd.1 = k'
      · rw [if_pos hk', if_pos hk']
      · rw [if_neg hk', if_neg hk']
        exact ih

theorem mem_aSet {α β : Type} [DecidableEq α] {d : List (α × β)} {k : α} {v : β}
    {e : α × β} (h : e ∈ aSet d k v) : e ∈ d ∨ e = (k, v) := by
  induction d with
  | nil => simp [aSet] at h; exact .inr h
  | cons hd tl ih =>
    rw [aSet] at h
    by_cases hk : hd.1 = k
    · rw [if_pos hk] at h
      rcases List.mem_cons.mp h with rfl | hm
      · exact .inr rfl
      · exact .inl (List.mem_cons_of_mem _ hm)
    · rw [if_neg hk] at h
      rcases List.mem_cons.mp h with rfl | hm
      · exact .inl (List.mem_cons_self _ _)
      · rcases ih hm with h' | h'
        · exact .inl (List.mem_cons_of_mem _ h')
        · exact .inr h'

theorem mem_aKeys_aSet_self {α β : Type} [DecidableEq α] (d : List (α × β)) (k : α)
    (v : β) : k ∈ aKeys (aSet d k v) := by
  induction d with
  | nil => simp [aSet, aKeys]
  | cons hd tl ih =>
    rw [aSet]
    by_cases hk : hd.1 = k
    · rw [if_pos hk]; simp [aKeys]
    · rw [if_neg hk]
      simpa [aKeys] using .inr (by simpa [aKeys] using ih)

theorem mem_aKeys_aSet_of {α β : Type} [DecidableEq α] {d : List (α × β)} {k' : α}
    (k : α) (v : β) (h : k' ∈ aKeys d) : k' ∈ aKeys (aSet d k v) := by
  induction d with
  | nil => simp [aKeys] at h
  | cons hd tl ih =>
    rw [aSet]
    by_cases hk : hd.1 = k
    · rw [if_pos hk]
      simp only [aKeys, List.map_cons, List.mem_cons] at h ⊢
      rcases h with h | h
      · exact .inl (hk ▸ h)
      · exact .inr h
    · rw [if_neg hk]
      simp only [aKeys, List.map_cons, List.mem_cons] at h ⊢
      rcases h with h | h
      · exact .inl h
      · exact .inr (ih h)

theorem mem_of_mem_aKeys {α β : Type} {d : List (α × β)} {k : α}
    (h : k ∈ aKeys d) : ∃ v, (k, v) ∈ d := by
  induction d with
  | nil => simp [aKeys] at h
  | cons hd tl ih =>
    simp only [aKeys, List.map_cons, List.mem_cons] at h
    rcases h with h | h
    · exact ⟨hd.2, by simp only [List.mem_cons]; exact .inl (by rw [h])⟩
    · obtain ⟨v, hv⟩ := ih h
      exact ⟨v, List.mem_cons_of_mem _ hv⟩

theorem dictBeq_symm {α β : Type} [DecidableEq α] [DecidableEq β]
    (a b : List (α × β)) : dictBeq a b = dictBeq b a := by
  unfold dictBeq
  exact Bool.and_comm _ _

/-- Every entry of a filtered dict is an entry of the dict. -/
theorem aGet_filter_mem {α β : Type} [DecidableEq α] {d : List (α × β)}
    {p : α × β → Bool} {k : α} {v : β} (h : aGet (d.filter p) k = some v) :
    (k, v) ∈ d :=
  List.mem_of_mem_filter (aGet_mem h)

/-- Filtering with a predicate that keeps every pair carrying key `k` does
not change the lookup of `k`. -/
theorem aGet_filter_keep {α β : Type} [DecidableEq α] {d : List (α × β)}
    {p : α × β → Bool} {k : α} (h : ∀ v, (k, v) ∈ d → p (k, v) = true) :
    aGet (d.filter p) k = aGet d k := by
  induction d with
  | nil => simp
  | cons hd tl ih =>
    by_cases hk : hd.1 = k
    · have hp : p hd = true := by
        have := h hd.2 (by simp [← hk])
        simpa [← hk] using this
      rw [List.filter_cons_of_pos hp, aGet, if_pos hk, aGet, if_pos hk]
    · have ih' := ih fun v hv => h v (List.mem_cons_of_mem _ hv)
      by_cases hp : p hd = true
      · rw [List.filter_cons_of_pos hp, aGet, if_neg hk, aGet, if_neg hk]
        exact ih'
      · rw [List.filter_cons_of_neg (by simpa using hp), aGet, if_neg hk]
        exact ih'

/-! ## fixSourceLocations lemmas -/

theorem locItemsToDelete_not_smart {sources : List GlyphSourceM}
    {smart : List String} {it : String × Val}
    (h : it ∈ locItemsToDelete sources smart) : it.1 ∉ smart := by
  unfold locItemsToDelete at h
  have hp := List.of_mem_filter h
  simp only [Bool.and_eq_true, Bool.not_eq_true'] at hp
  intro hmem
  have hc : smart.contains it.1 = true := List.elem_iff.mpr hmem
  rw [hc] at hp
  exact Bool.noConfusion hp.1

theorem itemSourceIndices_nil {sources : List GlyphSourceM} {it : String × Val}
    (h : itemSourceIndices sources it = []) :
    ∀ s ∈ sources, it ∉ s.location := by
  intro s hs hmem
  unfold itemSourceIndices at h
  rw [List.map_eq_nil_iff] at h
  rw [List.filter_eq_nil_iff] at h
  obtain ⟨i, hi⟩ := mem_enumFrom_of_mem hs 0
  exact h (i, s) (by simpa [List.enum] using hi) (by simpa using hmem)

theorem itemSourceIndices_ne_nil {sources : List GlyphSourceM} {it : String × Val}
    (h : itemSourceIndices sources it ≠ []) :
    ∃ s ∈ sources, it ∈ s.location := by
  unfold itemSourceIndices at h
  have : sources.enum.filter (fun p => decide (it ∈ p.2.location)) ≠ [] := by
    intro hc
    exact h (by rw [hc]; rfl)
  obtain ⟨p, hp⟩ := List.exists_mem_of_ne_nil _ this
  have hmem := List.mem_of_mem_filter hp
  have hit := List.of_mem_filter hp
  exact ⟨p.2, mem_of_mem_enumFrom (by simpa [List.enum] using hmem), by simpa using hit⟩

theorem mem_allLocItems {sources : List GlyphSourceM} {it : String × Val}
    (h : ∃ s ∈ sources, it ∈ s.location) : it ∈ allLocItems sources := by
  obtain ⟨s, hs, hmem⟩ := h
  unfold allLocItems
  exact mem_dedupFirst.mpr (List.mem_flatMap.mpr ⟨s, hs, hmem⟩)

theorem mem_locItemsToDelete {sources : List GlyphSourceM} {smart : List String}
    {a a' : String} {v v' : Val}
    (ha : a ∉ smart) (ha' : a' ∈ smart)
    (hshare : itemSourceIndices sources (a, v) = itemSourceIndices sources (a', v'))
    (hne : itemSourceIndices sources (a, v) ≠ []) :
    (a, v) ∈ locItemsToDelete sources smart := by
  have hmem1 : (a, v) ∈ allLocItems sources :=
    mem_allLocItems (itemSourceIndices_ne_nil hne)
  have hmem2 : (a', v') ∈ allLocItems sources :=
    mem_allLocItems (itemSourceIndices_ne_nil (hshare ▸ hne))
  unfold locItemsToDelete
  refine List.mem_filter.mpr ⟨hmem1, ?_⟩
  simp only [Bool.and_eq_true, Bool.not_eq_true', decide_eq_true_eq]
  constructor
  · rw [Bool.eq_false_iff]
    intro hc
    exact ha (List.elem_iff.mp hc)
  · have h1 : (a, v) ∈ (allLocItems sources).filter
        (fun item2 => decide (itemSourceIndices sources item2 =
          itemSourceIndices sources (a, v))) :=
      List.mem_filter.mpr ⟨hmem1, by simp⟩
    have h2 : (a', v') ∈ (allLocItems sources).filter
        (fun item2 => decide (itemSourceIndices sources item2 =
          itemSourceIndices sources (a, v))) :=
      List.mem_filter.mpr ⟨hmem2, by simp [hshare]⟩
    have hd : (a, v) ≠ (a', v') := by
      intro hc
      injection hc with hc1 _
      exact ha (hc1 ▸ ha')
    exact one_lt_length_of_two_mem h1 h2 hd

/-! ## putGlyph error-propagation lemmas -/

/-- The `sourceLayers` dict of `getSourceLayerNames`. -/
def sourceLayersFold (vg : VariableGlyphM) (l : List GlyphSourceM)
    (init : List (String × List String)) : List (String × List String) :=
  l.foldl (fun acc src => aSet acc src.layerName (ownedLayerKeys vg src.layerName)) init

theorem sourceLayersFold_entry (vg : VariableGlyphM) :
    ∀ (l : List GlyphSourceM) (init : List (String × List String))
      (e : String × List String), e ∈ sourceLayersFold vg l init →
      e ∈ init ∨ ∃ src ∈ l, e = (src.layerName, ownedLayerKeys vg src.layerName) := by
  intro l
  induction l with
  | nil => intro init e h; exact .inl h
  | cons hd tl ih =>
    intro init e h
    rcases ih _ e h with h' | h'
    · rcases mem_aSet h' with h'' | h''
      · exact .inl h''
      · exact .inr ⟨hd, List.mem_cons_self _ _, h''⟩
    · obtain ⟨src, hs, he⟩ := h'
      exact .inr ⟨src, List.mem_cons_of_mem _ hs, he⟩

theorem sourceLayersFold_keys_mono (vg : VariableGlyphM) :
    ∀ (l : List GlyphSourceM) (init : List (String × List String)) (k : String),
      k ∈ aKeys init → k ∈ aKeys (sourceLayersFold vg l init) := by
  intro l
  induction l with
  | nil => intro init k h; exact h
  | cons hd tl ih =>
    intro init k h
    exact ih _ k (mem_aKeys_aSet_of _ _ h)

theorem sourceLayersFold_key (vg : VariableGlyphM) :
    ∀ (l : List GlyphSourceM) (init : List (String × List String))
      (src : GlyphSourceM), src ∈ l →
      src.layerName ∈ aKeys (sourceLayersFold vg l init) := by
  intro l
  induction l with
  | nil => intro init src h; simp at h
  | cons hd tl ih =>
    intro init src h
    rcases List.mem_cons.mp h with rfl | h'
    · exact sourceLayersFold_keys_mono _ tl _ _ (mem_aKeys_aSet_self _ _ _)
    · exact ih _ src h'

/-- Any rebuild error propagates out of `_putGlyph` with the raw glyph
records untouched (the raw splice happens only after a successful
rebuild). -/
theorem putGlyphM_error_of_rebuild_error
    (F : FontM) (st : BackendStateM) (glyphName : String) (vg : VariableGlyphM)
    (cps : List Nat)
    (he : ∀ g0 : GSGlyphM, ∃ e, variableGlyphToGSGlyph F vg g0 = .error e) :
    ∃ e, (putGlyphM F st glyphName vg cps).1 = .error e ∧
      (putGlyphM F st glyphName vg cps).2.rawGlyphs = st.rawGlyphs := by
  unfold putGlyphM
  by_cases hassert :
      vg.sources.all (fun src => aHasKey vg.layers src.layerName) = false
  · rw [if_pos hassert]
    exact ⟨.assertionError, rfl, rfl⟩
  · rw [if_neg hassert]
    simp only
    by_cases hnew : st.gsGlyphs.any (fun g => g.glyphname == some glyphName) = false
    · rw [if_pos hnew]
      cases hf : (st.gsGlyphs ++ [freshGSGlyph glyphName]).find?
          (fun g => g.glyphname == some glyphName) with
      | none => exact ⟨.keyError glyphName, rfl, rfl⟩
      | some g0 =>
        obtain ⟨e, herr⟩ := he g0
        exact ⟨e, by simp [herr], by simp [herr]⟩
    · rw [if_neg hnew]
      cases hf : st.gsGlyphs.find? (fun g => g.glyphname == some glyphName) with
      | none => exact ⟨.keyError glyphName, rfl, rfl⟩
      | some g0 =>
        obtain ⟨e, herr⟩ := he g0
        exact ⟨e, by simp [herr], by simp [herr]⟩

/-- The precise form: under the source-layer assert, a rebuild failure with
error `e` makes `_putGlyph` fail with exactly `e`, raw records untouched. -/
theorem putGlyphM_rebuild_error_precise
    (F : FontM) (st : BackendStateM) (glyphName : String) (vg : VariableGlyphM)
    (cps : List Nat) (e : PyErr)
    (hassert : vg.sources.all (fun src => aHasKey vg.layers src.layerName) = true)
    (he : ∀ g0 : GSGlyphM, variableGlyphToGSGlyph F vg g0 = .error e) :
    (putGlyphM F st glyphName vg cps).1 = .error e ∧
      (putGlyphM F st glyphName vg cps).2.rawGlyphs = st.rawGlyphs := by
  unfold putGlyphM
  rw [if_neg (by simp [hassert])]
  simp only
  by_cases hnew : st.gsGlyphs.any (fun g => g.glyphname == some glyphName) = false
  · rw [if_pos hnew]
    have hnone : st.gsGlyphs.find? (fun g => g.glyphname == some glyphName) = none := by
      rw [List.find?_eq_none]
      intro x hx
      have := List.any_eq_false.mp hnew x hx
      simpa using this
    rw [List.find?_append, hnone]
    have hfresh : List.find? (fun g => g.glyphname == some glyphName)
        [freshGSGlyph glyphName] = some (freshGSGlyph glyphName) := by
      simp [List.find?, freshGSGlyph]
    rw [Option.none_or, hfresh]
    exact ⟨by simp [he (freshGSGlyph glyphName)], by simp [he (freshGSGlyph glyphName)]⟩
  · rw [if_neg hnew]
    have hsome : ∃ g0, st.gsGlyphs.find? (fun g => g.glyphname == some glyphName)
        = some g0 := by
      apply Option.isSome_iff_exists.mp
      rw [List.find?_isSome]
      have := List.any_eq_true.mp (eq_true_of_ne_false hnew)
      simpa using this
    obtain ⟨g0, hg0⟩ := hsome
    rw [hg0]
    exact ⟨by simp [he g0], by simp [he g0]⟩

/-- A monadic fold over `Except` fails whenever some list element fails
from every accumulator. -/
theorem foldlM_error_of_elem {α β : Type}
    (f : β → α → Except PyErr β) :
    ∀ (l : List α) (x : α), x ∈ l → (∀ acc : β, ∃ e, f acc x = .error e) →
      ∀ acc0 : β, ∃ e, l.foldlM f acc0 = .error e := by
  intro l
  induction l with
  | nil => intro x hx; simp at hx
  | cons hd tl ih =>
    intro x hx hf acc0
    rcases List.mem_cons.mp hx with rfl | hx'
    · obtain ⟨e, he⟩ := hf acc0
      refine ⟨e, ?_⟩
      rw [List.foldlM_cons, he]
      rfl
    · cases hstep : f acc0 hd with
      | error e =>
        refine ⟨e, ?_⟩
        rw [List.foldlM_cons, hstep]
        rfl
      | ok acc1 =>
        obtain ⟨e, he⟩ := ih x hx' hf acc1
        refine ⟨e, ?_⟩
        rw [List.foldlM_cons, hstep]
        exact he

theorem ok_bind {ε α β : Type} (a : α) (k : α → Except ε β) :
    (Except.ok a : Except ε α) >>= k = k a := rfl

theorem error_bind {ε α β : Type} (e : ε) (k : α → Except ε β) :
    (Except.error e : Except ε α) >>= k = Except.error e := rfl

/-- `setupSmartComponentAxes` fails with the message naming the first axis
`find?` locates as violating the default-at-bound constraint. -/
theorem setupSmartComponentAxes_error (vg : VariableGlyphM) (ax : GlyphAxisM)
    (hfind : vg.axes.find? glyphAxisViolatesDefault = some ax) :
    setupSmartComponentAxes vg =
      .error (.backendError (glyphAxisDefaultErrMsg ax.name)) := by
  unfold setupSmartComponentAxes
  generalize vg.axes = l at hfind ⊢
  induction l with
  | nil => simp at hfind
  | cons hd tl ih =>
    by_cases hv : glyphAxisViolatesDefault hd = true
    · rw [List.find?_cons_of_pos _ hv] at hfind
      injection hfind with h
      subst h
      rw [List.mapM_cons, if_pos hv]
      rfl
    · rw [List.find?_cons_of_neg _ hv] at hfind
      rw [List.mapM_cons]
      have := ih hfind
      simp only [hv, Bool.false_eq_true, if_false, this]
      rfl

/-- When every layer key is a source's layer name or a `^`-suffix of one,
the `nonSourceLayerNames` filter of `_variableGlyphToGSGlyph` is empty. -/
theorem nonSourceLayerNames_empty (vg : VariableGlyphM)
    (hlay : ∀ k ∈ aKeys vg.layers,
      (∃ src ∈ vg.sources, k = src.layerName) ∨
      (∃ src ∈ vg.sources, strStartsWith k (src.layerName ++ "^") = true)) :
    (aKeys vg.layers).filter
      (fun k => !(aKeys (sourceLayersFold vg vg.sources []) ++
        (sourceLayersFold vg vg.sources []).flatMap (·.2)).contains k) = [] := by
  rw [List.filter_eq_nil_iff]
  intro k hk
  simp only [Bool.not_eq_true', Bool.not_eq_false]
  apply List.elem_iff.mpr
  rcases hlay k hk with ⟨src, hs, rfl⟩ | ⟨src, hs, hpre⟩
  · exact List.mem_append_left _ (sourceLayersFold_key vg vg.sources [] src hs)
  · apply List.mem_append_right
    have hkey := sourceLayersFold_key vg vg.sources [] src hs
    obtain ⟨v, hv⟩ := mem_of_mem_aKeys hkey
    rcases sourceLayersFold_entry vg vg.sources [] (src.layerName, v) hv with h0 | h0
    · simp at h0
    · obtain ⟨src', hs', heq⟩ := h0
      injection heq with h1 h2
      apply List.mem_flatMap.mpr
      refine ⟨(src.layerName, v), hv, ?_⟩
      show k ∈ v
      rw [h2]
      unfold ownedLayerKeys
      exact List.mem_filter.mpr ⟨hk, by rw [← h1]; exact hpre⟩

/-- Under the layer-name validations, a violating glyph axis makes
`_variableGlyphToGSGlyph` fail with the axis message, for any starting
native glyph. -/
theorem vGTG_axis_error (F : FontM) (vg : VariableGlyphM) (g0 : GSGlyphM)
    (ax : GlyphAxisM)
    (hsrc : vg.sources.all (fun src => aHasKey vg.layers src.layerName) = true)
    (hlay : ∀ k ∈ aKeys vg.layers,
      (∃ src ∈ vg.sources, k = src.layerName) ∨
      (∃ src ∈ vg.sources, strStartsWith k (src.layerName ++ "^") = true))
    (hfind : vg.axes.find? glyphAxisViolatesDefault = some ax) :
    variableGlyphToGSGlyph F vg g0 =
      .error (.backendError (glyphAxisDefaultErrMsg ax.name)) := by
  unfold variableGlyphToGSGlyph
  rw [getSourceLayerNames, if_pos hsrc]
  have hempty := nonSourceLayerNames_empty vg hlay
  simp only [sourceLayersFold] at hempty
  simp only [ok_bind]
  rw [if_neg (by exact fun hc => hc hempty)]
  rw [setupSmartComponentAxes_error vg ax hfind]
  simp only [error_bind]

/-! ## Claim theorems -/

/-- C6: `getGlyph` hands the post-pass only the smart-location keys of the
last layer in sorted order (the `smartLocation` loop variable read at line
609, after the loop), not the glyph's axis names. On the reachable glyph
`rawSmartDup`, whose last layer sits at its default poles, that protected
set is empty and the pass deletes glyph-axis entries: before the pass the
second emitted source holds `("X", 10)` and `("Y", 10)`, and the glyph
`getGlyph` returns — whose axes are exactly `X` and `Y` — has both sources
with an empty location. The same pass protected by the full glyph-axis
name set would have deleted nothing (third conjunct), as the claim and the
code's own comment describe. -/
theorem c6_smart_axis_entries_deleted_by_post_pass :
    (readLayersAcc fontOneMaster
        [("X", ⟨"X", 0, 0, 10⟩), ("Y", ⟨"Y", 0, 0, 10⟩)] rawSmartDup.layers).map
      (fun acc => (acc.lastSmartLocation, acc.sources.map (·.location))) =
      .ok (some [], [[], [("X", 10), ("Y", 10)]]) ∧
    (readGSGlyph fontOneMaster "T" rawSmartDup).map
      (fun vg => (vg.axes.map (·.name), vg.sources.map (·.location))) =
      .ok (["X", "Y"], [[], []]) ∧
    fixSourceLocations
      [⟨"Regular", [], "MSTR", none, []⟩,
       ⟨"Regular / poles", [("X", 10), ("Y", 10)], "u2", none, []⟩] ["X", "Y"] =
      [⟨"Regular", [], "MSTR", none, []⟩,
       ⟨"Regular / poles", [("X", 10), ("Y", 10)], "u2", none, []⟩] := by
  exact ⟨by decide, by decide, by decide⟩

/-- The invariant of the `getGlyph` layer loop: the seen-location list is
exactly the emitted sources' locations, and it is duplicate-free under
dict equality. -/
def readInv (acc : ReadAcc) : Prop :=
  acc.seenLocations = acc.sources.map (·.location) ∧
  acc.seenLocations.Pairwise fun x y => dictBeq x y = false

theorem applyReadLayer_inv {acc : ReadAcc} {l : GSLayerM} {f : LayerReadFacts}
    (h : readInv acc) : readInv (applyReadLayer acc l f) := by
  unfold applyReadLayer
  by_cases hd : dictMem f.location acc.seenLocations = true
  · rw [if_pos hd]
    exact ⟨h.1, h.2⟩
  · rw [if_neg hd]
    constructor
    · simp only [List.map_append, List.map_cons, List.map_nil]
      rw [h.1]
    · rw [List.pairwise_append]
      refine ⟨h.2, List.pairwise_singleton _ _, ?_⟩
      intro x hx y hy
      simp only [List.mem_singleton] at hy
      subst hy
      have hall : ∀ z ∈ acc.seenLocations, dictBeq f.location z = false := by
        intro z hz
        have := List.any_eq_false.mp (Bool.eq_false_iff.mpr hd) z hz
        exact Bool.eq_false_iff.mpr this
      rw [← dictBeq_symm]
      exact hall x hx

theorem foldlM_readInv (F : FontM) (la : List (String × GlyphAxisM)) :
    ∀ (ls : List GSLayerM) (acc0 accF : ReadAcc),
      readInv acc0 → ls.foldlM (readLayerStep F la) acc0 = .ok accF →
      readInv accF := by
  intro ls
  induction ls with
  | nil =>
    intro acc0 accF h0 hf
    cases hf
    exact h0
  | cons hd tl ih =>
    intro acc0 accF h0 hf
    cases hstep : readLayerStep F la acc0 hd with
    | error e =>
      rw [List.foldlM_cons, hstep] at hf
      exact Except.noConfusion hf
    | ok acc1 =>
      rw [List.foldlM_cons, hstep] at hf
      have hinv1 : readInv acc1 := by
        unfold readLayerStep at hstep
        cases hfacts : readLayerFacts F la hd with
        | error e =>
          rw [hfacts] at hstep
          exact Except.noConfusion hstep
        | ok f =>
          rw [hfacts] at hstep
          have : applyReadLayer acc0 hd f = acc1 := by
            simpa [Except.map] using hstep
          exact this ▸ applyReadLayer_inv h0
      exact ih acc1 accF hinv1 hf

/-- When the per-layer facts computation succeeds, its merged location is
what `layerMergedLocation` computes. -/
theorem readLayerFacts_location {F : FontM} {la : List (String × GlyphAxisM)}
    {l : GSLayerM} {f : LayerReadFacts}
    (h : readLayerFacts F la l = .ok f) :
    layerMergedLocation F la l = .ok f.location := by
  unfold readLayerFacts at h
  unfold layerMergedLocation
  cases hs : getSmartLocation F la l with
  | error e =>
    rw [hs] at h
    exact Except.noConfusion h
  | ok smart =>
    rw [hs] at h
    cases hm : aGet (F.masters.map fun m => (m.id, m.name)) l.associatedMasterId with
    | none =>
      rw [hm] at h
      exact Except.noConfusion h
    | some mn =>
      rw [hm] at h
      cases hl : aGet F.locationByMasterID l.associatedMasterId with
      | none =>
        rw [hl] at h
        exact Except.noConfusion h
      | some masterLoc =>
        rw [hl] at h
        simp only [Except.bind] at h
        cases h
        rfl

/-- A string is never equal to itself extended by two suffixes that are
not both empty. -/
theorem append_append_ne (s t u : String) (h : t.data.length + u.data.length ≠ 0) :
    s ++ t ++ u ≠ s := by
  intro he
  have hd := congrArg (fun x : String => x.data.length) he
  simp only [String.data_append, List.length_append] at hd
  omega

/-- C2 amended: before the `fixSourceLocations` post-pass no two emitted
sources share a dict-equal location; and a layer whose merged location was
already seen appends no source, and its shape data is written into the
layers dict under the shadow key `"<associatedMasterId>^<nativeLayerName>"`
(with the original native layer id stashed). The post-pass can afterwards
delete font-axis entries and leave two final sources with equal locations
(see the counterexample). -/
theorem c2_amended_unique_before_fix_pass :
    (∀ (F : FontM) (la : List (String × GlyphAxisM)) (layers : List GSLayerM)
        (acc : ReadAcc),
      readLayersAcc F la layers = .ok acc →
      acc.sources.Pairwise fun s t => dictBeq s.location t.location = false) ∧
    (∀ (F : FontM) (la : List (String × GlyphAxisM)) (acc acc' : ReadAcc)
        (l : GSLayerM) (loc : Loc),
      readLayerStep F la acc l = .ok acc' →
      layerMergedLocation F la l = .ok loc →
      dictMem loc acc.seenLocations = true →
      acc'.sources = acc.sources ∧
      aGet acc'.layers (shadowLayerName l) =
        some (gsLayerToFontraLayer l.shape l.width (some l.layerId))) := by
  constructor
  · intro F la layers acc hacc
    unfold readLayersAcc at hacc
    cases hsort : sortGSLayers layers with
    | error e =>
      rw [hsort] at hacc
      exact Except.noConfusion hacc
    | ok sorted =>
      rw [hsort] at hacc
      have hinv : readInv acc :=
        foldlM_readInv F la sorted ⟨[], [], [], none⟩ acc ⟨rfl, List.Pairwise.nil⟩ hacc
      have hp : (acc.sources.map (·.location)).Pairwise
          (fun x y => dictBeq x y = false) := hinv.1 ▸ hinv.2
      exact List.pairwise_map.mp hp
  · intro F la acc acc' l loc hstep hloc hseen
    unfold readLayerStep at hstep
    cases hfacts : readLayerFacts F la l with
    | error e =>
      rw [hfacts] at hstep
      exact Except.noConfusion hstep
    | ok f =>
      rw [hfacts] at hstep
      have hfl : f.location = loc := by
        have h2 := readLayerFacts_location hfacts
        rw [hloc] at h2
        injection h2 with h3
        exact h3.symm
      have hacc' : applyReadLayer acc l f = acc' := by
        simpa [Except.map] using hstep
      subst hacc'
      unfold applyReadLayer
      rw [hfl, if_pos hseen]
      refine ⟨rfl, ?_⟩
      cases hbg : l.background with
      | none =>
        simp only [hbg]
        exact aGet_aSet_self _ _ _
      | some bg =>
        simp only [hbg]
        rw [aGet_aSet_ne _ _ _ _
          (append_append_ne (shadowLayerName l) "/" "background" (by decide))]
        exact aGet_aSet_self _ _ _

/-- The glyph-axis table of the smart glyph fixture. -/
def laSmartX : List (String × GlyphAxisM) := [("X", ⟨"X", 0, 0, 9⟩)]

/-- The loop state after reading all three layers of `rawSmart` (before
the post-pass; the third source still carries its font-axis entries). -/
def accSmartRead : ReadAcc :=
  ⟨[[], [("X", 9)], [("Weight", 1), ("Width", 2), ("X", 9)]],
   [⟨"Regular", [], "m2", none, []⟩,
    ⟨"Regular / pole", [("X", 9)], "u1", none, []⟩,
    ⟨"Bold / Bold", [("Weight", 1), ("Width", 2), ("X", 9)], "m1", none, []⟩],
   [("m2", ⟨500, 1, []⟩), ("u1", ⟨500, 2, []⟩), ("m1", ⟨500, 3, []⟩)],
   some [("X", 9)]⟩

/-- The master layer of `fontOneMaster`, whose location duplicates the
already-seen empty sparse location. -/
def dupLayer : GSLayerM := ⟨"MSTR", some "Regular", "MSTR", none, [], [], none, 520, 2⟩

/-- A loop state that has already seen the empty location. -/
def accSeenDefault : ReadAcc :=
  ⟨[[]], [⟨"odd", [], "u1", none, []⟩], [("u1", ⟨500, 1, []⟩)], some []⟩

/-- The loop state after `dupLayer` is processed as a shadow layer. -/
def accAfterShadow : ReadAcc :=
  ⟨[[]], [⟨"odd", [], "u1", none, []⟩],
   [("u1", ⟨500, 1, []⟩),
    ("MSTR^Regular", ⟨520, 2, [("com.glyphsapp.layer.layerId", "MSTR")]⟩)],
   some []⟩

/-- C2 witness: the amended theorem applied to the smart-glyph fixture
(pairwise-distinct pre-pass locations) and to the duplicate master layer
(shadow key, no new source). -/
theorem c2_amended_witness :
    (accSmartRead.sources.Pairwise fun s t =>
      dictBeq s.location t.location = false) ∧
    (accAfterShadow.sources = accSeenDefault.sources ∧
      aGet accAfterShadow.layers (shadowLayerName dupLayer) =
        some (gsLayerToFontraLayer dupLayer.shape dupLayer.width
          (some dupLayer.layerId))) :=
  ⟨c2_amended_unique_before_fix_pass.1 fontTwoAxes laSmartX rawSmart.layers
      accSmartRead (by decide),
   c2_amended_unique_before_fix_pass.2 fontOneMaster [] accSeenDefault
      accAfterShadow dupLayer [] (by decide) (by decide) (by decide)⟩

/-- C3 amended: under the validations that run first (every source's layer
name exists in `layers`, every layer key belongs to a source), a glyph axis
whose default lies strictly between min and max makes `putGlyph` fail with
the backend error naming the first axis whose default is not at a bound,
and the raw glyph records stay untouched. -/
theorem c3_amended_axis_default_rejected
    (F : FontM) (st : BackendStateM) (glyphName : String) (vg : VariableGlyphM)
    (cps : List Nat)
    (hsrc : vg.sources.all (fun src => aHasKey vg.layers src.layerName) = true)
    (hlay : ∀ k ∈ aKeys vg.layers,
      (∃ src ∈ vg.sources, k = src.layerName) ∨
      (∃ src ∈ vg.sources, strStartsWith k (src.layerName ++ "^") = true))
    (hax : ∃ ax ∈ vg.axes,
      ax.minValue < ax.defaultValue ∧ ax.defaultValue < ax.maxValue) :
    ∃ ax, vg.axes.find? glyphAxisViolatesDefault = some ax ∧
      (putGlyphM F st glyphName vg cps).1 =
        .error (.backendError (glyphAxisDefaultErrMsg ax.name)) ∧
      (putGlyphM F st glyphName vg cps).2.rawGlyphs = st.rawGlyphs := by
  obtain ⟨ax0, hax0, hlt1, hlt2⟩ := hax
  have hviol : glyphAxisViolatesDefault ax0 = true := by
    unfold glyphAxisViolatesDefault
    simp only [Bool.and_eq_true, decide_eq_true_eq]
    exact ⟨ne_of_gt hlt1, ne_of_lt hlt2⟩
  obtain ⟨axF, hfindF⟩ : ∃ a, vg.axes.find? glyphAxisViolatesDefault = some a :=
    Option.isSome_iff_exists.mp (List.find?_isSome.mpr ⟨ax0, hax0, hviol⟩)
  refine ⟨axF, hfindF, ?_⟩
  exact putGlyphM_rebuild_error_precise F st glyphName vg cps _ hsrc
    (fun g0 => vGTG_axis_error F vg g0 axF hsrc hlay hfindF)

/-- C3 witness: the amended theorem at `vgTwoBadAxes` (its axis `Hght` has
default 5 strictly inside [0, 10]; the first violator found is `Wdth`). -/
theorem c3_amended_witness :
    ∃ ax, vgTwoBadAxes.axes.find? glyphAxisViolatesDefault = some ax ∧
      (putGlyphM fontOneMaster stOne "B" vgTwoBadAxes []).1 =
        .error (.backendError (glyphAxisDefaultErrMsg ax.name)) ∧
      (putGlyphM fontOneMaster stOne "B" vgTwoBadAxes []).2.rawGlyphs =
        stOne.rawGlyphs :=
  c3_amended_axis_default_rejected fontOneMaster stOne "B" vgTwoBadAxes []
    (by decide) (by decide)
    ⟨⟨"Hght", 0, 5, 10⟩, by decide, by decide, by decide⟩

/-- A layer key that is neither a source's layer name nor a `^`-suffix of
one makes the `nonSourceLayerNames` filter nonempty. -/
theorem nonSourceLayerNames_nonempty (vg : VariableGlyphM) (key : String)
    (hk : key ∈ aKeys vg.layers)
    (hnotsrc : ∀ src ∈ vg.sources, key ≠ src.layerName)
    (hnotpre : ∀ src ∈ vg.sources,
      strStartsWith key (src.layerName ++ "^") = false) :
    (aKeys vg.layers).filter
      (fun k => !(aKeys (sourceLayersFold vg vg.sources []) ++
        (sourceLayersFold vg vg.sources []).flatMap (·.2)).contains k) ≠ [] := by
  apply List.ne_nil_of_mem (a := key)
  apply List.mem_filter.mpr
  refine ⟨hk, ?_⟩
  simp only [Bool.not_eq_true']
  rw [Bool.eq_false_iff]
  intro hc
  rcases List.mem_append.mp (List.elem_iff.mp hc) with hmem | hmem
  · obtain ⟨v, hv⟩ := mem_of_mem_aKeys hmem
    rcases sourceLayersFold_entry vg vg.sources [] (key, v) hv with h0 | h0
    · simp at h0
    · obtain ⟨src, hs, heq⟩ := h0
      injection heq with h1 _
      exact hnotsrc src hs h1
  · obtain ⟨kv, hkv, hmemv⟩ := List.mem_flatMap.mp hmem
    rcases sourceLayersFold_entry vg vg.sources [] kv hkv with h0 | h0
    · simp at h0
    · obtain ⟨src, hs, heq⟩ := h0
      rw [heq] at hmemv
      have hpre := List.of_mem_filter hmemv
      rw [hnotpre src hs] at hpre
      exact Bool.noConfusion hpre

/-- C4: a layers key that is neither some source's `layerName` nor of the
form `<primary>^<suffix>` for a source's `layerName` makes `putGlyph` fail
(never a silent success or drop), with the raw records untouched. -/
theorem c4_dangling_layer_rejected
    (F : FontM) (st : BackendStateM) (glyphName : String) (vg : VariableGlyphM)
    (cps : List Nat) (key : String)
    (hk : key ∈ aKeys vg.layers)
    (hnotsrc : ∀ src ∈ vg.sources, key ≠ src.layerName)
    (hnotpre : ∀ src ∈ vg.sources,
      strStartsWith key (src.layerName ++ "^") = false) :
    ∃ e, (putGlyphM F st glyphName vg cps).1 = .error e ∧
      (putGlyphM F st glyphName vg cps).2.rawGlyphs = st.rawGlyphs := by
  apply putGlyphM_error_of_rebuild_error
  intro g0
  unfold variableGlyphToGSGlyph
  rw [getSourceLayerNames]
  by_cases hsrc : vg.sources.all (fun src => aHasKey vg.layers src.layerName) = true
  · rw [if_pos hsrc]
    simp only [ok_bind]
    have hne := nonSourceLayerNames_nonempty vg key hk hnotsrc hnotpre
    simp only [sourceLayersFold] at hne
    rw [if_pos hne]
    exact ⟨.backendError layerWithoutSourceMsg, rfl⟩
  · rw [if_neg hsrc]
    exact ⟨.assertionError, rfl⟩

/-- C4 witness: the theorem at `vgDanglingLayer`, whose key `y^z` belongs
to no source. -/
theorem c4_witness :
    ∃ e, (putGlyphM fontOneMaster stOne "B" vgDanglingLayer []).1 = .error e ∧
      (putGlyphM fontOneMaster stOne "B" vgDanglingLayer []).2.rawGlyphs =
        stOne.rawGlyphs :=
  c4_dangling_layer_rejected fontOneMaster stOne "B" vgDanglingLayer [] "y^z"
    (by decide) (by decide) (by decide)

/-- The dense font-axis half of a source's resolved location, as
`_setupSourceInfo` computes it during `putGlyph`. -/
def sourceDenseFontLocation (F : FontM) (vg : VariableGlyphM)
    (src : GlyphSourceM) : Except PyErr Loc :=
  (getSourceLocations F vg.axes (getDefaultLocation vg.axes) src).map (·.1)

/-- A source at a non-master font location in a glyph with local axes makes
`_setupSourceInfo` raise the brace-in-smart-glyph error. -/
theorem setupSourceInfo_brace_error (F : FontM) (vg : VariableGlyphM)
    (src : GlyphSourceM) (floc : Loc)
    (hloc : sourceDenseFontLocation F vg src = .ok floc)
    (hnomaster : aGet F.masterIDByLocationTuple (locationToTuple floc) = none)
    (haxes : vg.axes ≠ []) :
    setupSourceInfo F vg (getDefaultLocation vg.axes) src =
      .error (.notImplementedError braceInSmartErrMsg) := by
  unfold setupSourceInfo
  unfold sourceDenseFontLocation at hloc
  cases hls : getSourceLocations F vg.axes (getDefaultLocation vg.axes) src with
  | error e =>
    rw [hls] at hloc
    exact absurd hloc (by simp [Except.map])
  | ok locs =>
    rw [hls] at hloc
    have hfst : locs.1 = floc := by simpa [Except.map] using hloc
    have hempt : vg.axes.isEmpty = false := by
      cases h : vg.axes with
      | nil => exact absurd h haxes
      | cons a l => rfl
    simp only [ok_bind, hfst, hnomaster, hempt]
    rfl

/-- The per-source processing fails from any accumulator for such a
source. -/
theorem processSource_brace_error (F : FontM) (vg : VariableGlyphM)
    (sl : List (String × List String)) (src : GlyphSourceM) (floc : Loc)
    (hloc : sourceDenseFontLocation F vg src = .ok floc)
    (hnomaster : aGet F.masterIDByLocationTuple (locationToTuple floc) = none)
    (haxes : vg.axes ≠ []) (acc : WriteAcc) :
    processSource F vg sl (getDefaultLocation vg.axes) acc src =
      .error (.notImplementedError braceInSmartErrMsg) := by
  unfold processSource
  rw [setupSourceInfo_brace_error F vg src floc hloc hnomaster haxes]
  rfl

/-- C5: during `putGlyph`, a source whose dense font-axis location matches
no master exactly, in a glyph with local glyph axes, makes the write fail
(the native format cannot combine brace and smart-component layers). -/
theorem c5_brace_in_smart_glyph_rejected
    (F : FontM) (st : BackendStateM) (glyphName : String) (vg : VariableGlyphM)
    (cps : List Nat) (src : GlyphSourceM) (floc : Loc)
    (hsrc : src ∈ vg.sources)
    (hloc : sourceDenseFontLocation F vg src = .ok floc)
    (hnomaster : aGet F.masterIDByLocationTuple (locationToTuple floc) = none)
    (haxes : vg.axes ≠ []) :
    ∃ e, (putGlyphM F st glyphName vg cps).1 = .error e ∧
      (putGlyphM F st glyphName vg cps).2.rawGlyphs = st.rawGlyphs := by
  apply putGlyphM_error_of_rebuild_error
  intro g0
  unfold variableGlyphToGSGlyph
  cases hsl : getSourceLayerNames vg with
  | error e =>
    exact ⟨e, rfl⟩
  | ok sl =>
    simp only [ok_bind]
    by_cases hfil : (aKeys vg.layers).filter (fun k => !sl.2.contains k) ≠ []
    · rw [if_pos hfil]
      exact ⟨.backendError layerWithoutSourceMsg, rfl⟩
    · rw [if_neg hfil]
      cases hsetup : setupSmartComponentAxes vg with
      | error e =>
        exact ⟨e, rfl⟩
      | ok smartAxes =>
        simp only [ok_bind]
        obtain ⟨e, he⟩ := foldlM_error_of_elem
          (processSource F vg sl.1 (getDefaultLocation vg.axes)) vg.sources src hsrc
          (fun acc => ⟨.notImplementedError braceInSmartErrMsg,
            processSource_brace_error F vg sl.1 src floc hloc hnomaster haxes acc⟩)
          ⟨{ g0 with smartComponentAxes := smartAxes }, []⟩
        exact ⟨e, by rw [he]; rfl⟩

/-- C5 witness: the theorem at `vgBraceSmart`, whose source sits at
`Weight = 166` (no master there) while the glyph has the local axis
`Hght`. -/
theorem c5_witness :
    ∃ e, (putGlyphM fontOneMaster stOne "B" vgBraceSmart []).1 = .error e ∧
      (putGlyphM fontOneMaster stOne "B" vgBraceSmart []).2.rawGlyphs =
        stOne.rawGlyphs :=
  c5_brace_in_smart_glyph_rejected fontOneMaster stOne "B" vgBraceSmart []
    ⟨"src1", [("Weight", 166)], "x", none, []⟩ [("Weight", 166)]
    (by decide) (by decide) (by decide) (by decide)

/-- C1: evaluating the code at the failing input: reading glyph `A` (whose
only layer carries the master's location under a non-master layer id, as a
backup layer does), writing the result back with the same code points, and
reading again yields a different `VariableGlyph`: the write silently
replaces the native layer id by the master id, and the second read
additionally stashes that id in the layer's custom data. -/
theorem c1_roundTrip_not_identity :
    getGlyphM fontOneMaster stOne "A" = (.ok (some vgOddRead), stOneParsed) ∧
    putGlyphM fontOneMaster stOneParsed "A" vgOddRead [65] = (.ok (), stOneWritten) ∧
    (getGlyphM fontOneMaster stOneWritten "A").1 = .ok (some vgOddReread) ∧
    vgOddReread ≠ vgOddRead := by
  exact ⟨by decide, by decide, by decide, by decide⟩

/-- C2 counterexample: on glyph `S` the post-pass `fixSourceLocations`
deletes the two font-axis entries `("Weight", 1)` and `("Width", 2)` (they
share their source set with each other), leaving the second and third
emitted sources with equal locations, so the glyph `getGlyph` returns does
have two source entries with an equal location. -/
theorem c2_duplicate_locations_after_fix_pass :
    readGSGlyph fontTwoAxes "S" rawSmart =
      .ok ⟨"S", [⟨"X", 0, 0, 9⟩], [srcSmart0, srcSmart1, srcSmart2],
        [("m2", ⟨500, 1, []⟩), ("u1", ⟨500, 2, []⟩), ("m1", ⟨500, 3, []⟩)], []⟩ ∧
    srcSmart1.location = srcSmart2.location ∧ srcSmart1 ≠ srcSmart2 := by
  exact ⟨by decide, by decide, by decide⟩

/-- C3 counterexample: two glyphs with an axis whose default (5) lies
strictly between min (0) and max (10), named `Hght`, on which the write
fails with an error that does not name that axis: with an orphan layer the
layer-validation error wins; with a preceding offending axis `Wdth` the
message names `Wdth`. -/
theorem c3_error_need_not_name_the_axis :
    (∃ ax ∈ vgOrphanAndBadAxis.axes, ax.name = "Hght" ∧
      ax.minValue < ax.defaultValue ∧ ax.defaultValue < ax.maxValue) ∧
    (putGlyphM fontOneMaster stOne "B" vgOrphanAndBadAxis []).1 =
      .error (.backendError layerWithoutSourceMsg) ∧
    strHasSub layerWithoutSourceMsg "Hght" = false ∧
    (∃ ax ∈ vgTwoBadAxes.axes, ax.name = "Hght" ∧
      ax.minValue < ax.defaultValue ∧ ax.defaultValue < ax.maxValue) ∧
    (putGlyphM fontOneMaster stOne "B" vgTwoBadAxes []).1 =
      .error (.backendError (glyphAxisDefaultErrMsg "Wdth")) ∧
    strHasSub (glyphAxisDefaultErrMsg "Wdth") "Hght" = false := by
  exact ⟨by decide, by decide, by decide, by decide, by decide, by decide⟩

/-- C7 counterexample: for a layer whose name is UUID-shaped (and carries
no stashed id, with no suggested id), `getLayerId` returns the layer name
itself, not the deterministic hash of `"<glyphName>/<layerName>"` the claim
predicts. -/
theorem c7_uuid_layer_name_reused_not_hashed :
    isGlyphsUUID uuidName = true ∧
    getLayerId vgUuidLayer uuidName none = .ok uuidName ∧
    glyphsLayerIdHash "A" uuidName ≠ uuidName := by
  exact ⟨by decide, by decide, by decide⟩

/-- C8 counterexample: a `putKerning` whose horizontal table is valid but
whose vertical table references the unknown master `XX` fails with the
typed backend error, yet leaves the horizontal kerning table mutated (the
horizontal write had already been applied): the failed call does not leave
the kerning state unchanged. -/
theorem c8_failed_putKerning_leaves_partial_write :
    (putKerningM fontKern kstEmpty kernInputMixed).1 =
      .error (.backendError (unknownSourceIdsMsg ["XX"])) ∧
    (putKerningM fontKern kstEmpty kernInputMixed).2.kerning ≠ kstEmpty.kerning ∧
    aGet kernInputMixed "vkrn" = some kernBad ∧
    "XX" ∈ kernBad.sourceIdentifiers ∧
    (∀ m ∈ fontKern.masters, m.id ≠ "XX") := by
  exact ⟨by decide, by decide, by decide, by decide, by decide⟩

/-- C9 counterexample: `putGlyphMap` is a silent no-op that returns
success, not a "not implemented" error. -/
theorem c9_putGlyphMap_silently_succeeds :
    putGlyphMapSurface [("A", [65])] = .ok () := rfl

/-- C10 counterexample: `deleteGlyph` on a name absent from the font
raises a `KeyError` instead of returning quietly. -/
theorem c10_deleteGlyph_raises_on_unknown_name :
    stOne.rawGlyphs.any (fun g => g.glyphname == some "Zed") = false ∧
    deleteGlyphM stOne "Zed" =
      (.error (.keyError (deleteGlyphNotFoundMsg "Zed")), stOne) := by
  exact ⟨by decide, by decide⟩

/-- C7 amended: the native layer identifier priority in `getLayerId` is:
the stashed identifier in the layer's custom data; else the suggested
identifier; else the layer name itself when it is UUID-shaped; else the
deterministic SHA-1 based identifier derived from
`"<glyphName>/<layerName>"`. -/
theorem c7_amended_layer_id_priority
    (vg : VariableGlyphM) (layerName : String) (sugg : Option String)
    (layer : FLayerM) (h : aGet vg.layers layerName = some layer) :
    getLayerId vg layerName sugg = .ok (
      match aGet layer.customData "com.glyphsapp.layer.layerId" with
      | some i => i
      | none =>
        match sugg with
        | some s => s
        | none =>
          if isGlyphsUUID layerName then layerName
          else glyphsLayerIdHash vg.name layerName) := by
  unfold getLayerId
  rw [h]
  cases hc : aGet layer.customData "com.glyphsapp.layer.layerId" with
  | some i => simp only [hc]
  | none =>
    cases hs : sugg with
    | some s => simp only [hc, hs]
    | none => simp only [hc, hs]

/-- C7 witness: the amended theorem at the UUID-shaped layer name (the
stashed-id and suggested-id slots are empty, so the name itself is
returned). -/
theorem c7_amended_witness :
    getLayerId vgUuidLayer uuidName none = .ok (
      match aGet flayDemo.customData "com.glyphsapp.layer.layerId" with
      | some i => i
      | none =>
        match (none : Option String) with
        | some s => s
        | none =>
          if isGlyphsUUID uuidName then uuidName
          else glyphsLayerIdHash vgUuidLayer.name uuidName) :=
  c7_amended_layer_id_priority vgUuidLayer uuidName none flayDemo (by decide)

/-- A kerning table with an unknown source identifier fails its write with
the typed backend error and the state unchanged, whatever the target
attribute. -/
theorem fontraKerningToGSKerning_bad (st : KernStateM) (masters : List MasterM)
    (K : KerningM) (attr : KernAttr) (s1 s2 : Side)
    (hbad : ∃ sid ∈ K.sourceIdentifiers, ∀ m ∈ masters, m.id ≠ sid) :
    ∃ msg, fontraKerningToGSKerning st masters (some K) attr s1 s2 =
      (.error (.backendError msg), st) := by
  simp only [fontraKerningToGSKerning]
  by_cases hv : attr = KernAttr.vertKerning
  · rw [if_pos hv]
    exact ⟨vertKerningGlyphs2Msg, rfl⟩
  · rw [if_neg hv]
    obtain ⟨sid, hsid, hnm⟩ := hbad
    have hmem : sid ∈ (dedupFirst K.sourceIdentifiers).filter
        (fun sid => ¬ masters.any fun m => m.id == sid) := by
      apply List.mem_filter.mpr
      refine ⟨mem_dedupFirst.mpr hsid, ?_⟩
      simp only [decide_eq_true_eq]
      intro hc
      obtain ⟨m, hm, hbeq⟩ := List.any_eq_true.mp hc
      exact hnm m hm (by simpa using hbeq)
    rw [if_pos (List.ne_nil_of_mem hmem)]
    exact ⟨_, rfl⟩

/-- Every error `_fontraKerningToGSKerning` can produce is the typed
backend error: its only two raises are the Glyphs-2 vertical refusal and
the unknown-source-identifier message. -/
theorem fontraKerningToGSKerning_error_typed (st : KernStateM)
    (masters : List MasterM) (k : Option KerningM) (attr : KernAttr)
    (s1 s2 : Side) (e : PyErr) (st' : KernStateM)
    (h : fontraKerningToGSKerning st masters k attr s1 s2 = (.error e, st')) :
    ∃ msg, e = .backendError msg := by
  cases k with
  | none =>
    simp only [fontraKerningToGSKerning] at h
    exact absurd (congrArg Prod.fst h) (by simp)
  | some K =>
    simp only [fontraKerningToGSKerning] at h
    by_cases hv : attr = KernAttr.vertKerning
    · rw [if_pos hv] at h
      have h1 := congrArg Prod.fst h
      exact ⟨vertKerningGlyphs2Msg, by injection h1 with h2; exact h2.symm⟩
    · rw [if_neg hv] at h
      by_cases hu : (dedupFirst K.sourceIdentifiers).filter
          (fun sid => ¬ masters.any fun m => m.id == sid) ≠ []
      · rw [if_pos hu] at h
        have h1 := congrArg Prod.fst h
        exact ⟨_, by injection h1 with h2; exact h2.symm⟩
      · rw [if_neg hu] at h
        exact absurd (congrArg Prod.fst h) (by simp)

/-- C8 amended: `putKerning` fails with the typed backend error
(`GlyphsBackendError`) whenever any present table's `sourceIdentifiers`
holds a non-master id; the horizontal table is validated before any of its
mutation, so a failure on the horizontal table leaves the whole kerning
state unchanged (a failure on the vertical table, however, comes after the
horizontal write — see the counterexample for the possible partial
write). -/
theorem c8_amended_kerning_validation :
    (∀ (F : FontM) (st : KernStateM) (input : List (String × KerningM)),
      (∃ K : KerningM, (aGet input "kern" = some K ∨ aGet input "vkrn" = some K) ∧
        ∃ sid ∈ K.sourceIdentifiers, ∀ m ∈ F.masters, m.id ≠ sid) →
      ∃ msg, (putKerningM F st input).1 = .error (.backendError msg)) ∧
    (∀ (F : FontM) (st : KernStateM) (input : List (String × KerningM)),
      (∃ K : KerningM, aGet input "kern" = some K ∧
        ∃ sid ∈ K.sourceIdentifiers, ∀ m ∈ F.masters, m.id ≠ sid) →
      ∃ msg, (putKerningM F st input).1 = .error (.backendError msg) ∧
        (putKerningM F st input).2 = st) := by
  constructor
  · rintro F st input ⟨K, hks, hbad⟩
    unfold putKerningM
    by_cases ht : (dedupFirst (aKeys input)).filter
        (fun t => decide (t ≠ "kern") && decide (t ≠ "vkrn")) ≠ []
    · rw [if_pos ht]
      exact ⟨_, rfl⟩
    · rw [if_neg ht]
      rcases hks with hkern | hvkrn
      · rw [hkern]
        obtain ⟨msg, he⟩ := fontraKerningToGSKerning_bad st F.masters K
          .kerning .left .right hbad
        rw [he]
        exact ⟨msg, rfl⟩
      · rcases hr : fontraKerningToGSKerning st F.masters (aGet input "kern")
            KernAttr.kerning Side.left Side.right with ⟨fst, st'⟩
        cases fst with
        | error e =>
          obtain ⟨msg, hm⟩ := fontraKerningToGSKerning_error_typed st F.masters
            (aGet input "kern") .kerning .left .right e st' hr
          exact ⟨msg, by rw [hm]⟩
        | ok u =>
          rw [hvkrn]
          obtain ⟨msg, he⟩ := fontraKerningToGSKerning_bad st' F.masters K
            (verticalKerningAttr F) .top .bottom hbad
          exact ⟨msg, by simp [he]⟩
  · rintro F st input ⟨K, hkern, hbad⟩
    unfold putKerningM
    by_cases ht : (dedupFirst (aKeys input)).filter
        (fun t => decide (t ≠ "kern") && decide (t ≠ "vkrn")) ≠ []
    · rw [if_pos ht]
      exact ⟨_, rfl, rfl⟩
    · rw [if_neg ht]
      rw [hkern]
      obtain ⟨msg, he⟩ := fontraKerningToGSKerning_bad st F.masters K
        .kerning .left .right hbad
      rw [he]
      exact ⟨msg, rfl, rfl⟩

/-- C8 witness: part one at the mixed fixture (bad vertical table), part
two at a bad horizontal table, whose failure leaves the state unchanged;
both failures carry the typed backend error. -/
theorem c8_amended_witness :
    (∃ msg, (putKerningM fontKern kstEmpty kernInputMixed).1 =
      .error (.backendError msg)) ∧
    (∃ msg, (putKerningM fontKern kstEmpty [("kern", kernBad)]).1 =
        .error (.backendError msg) ∧
      (putKerningM fontKern kstEmpty [("kern", kernBad)]).2 = kstEmpty) :=
  ⟨c8_amended_kerning_validation.1 fontKern kstEmpty kernInputMixed
      ⟨kernBad, Or.inr (by decide), "XX", by decide, by decide⟩,
   c8_amended_kerning_validation.2 fontKern kstEmpty [("kern", kernBad)]
      ⟨kernBad, by decide, "XX", by decide, by decide⟩⟩

/-- C9 amended: every put operation of the public surface other than
`putGlyph`, `putKerning`, `putFeatures` and `putGlyphMap` raises the
"not implemented" error; `putGlyphMap` silently does nothing and returns
success. -/
theorem c9_amended_put_surface :
    (∀ (α : Type) (x : α), putFontInfoSurface x = .error (.notImplementedError
      "GlyphsApp Backend: Editing FontInfo is not yet implemented.")) ∧
    (∀ (α : Type) (x : α), putSourcesSurface x = .error (.notImplementedError
      "GlyphsApp Backend: Editing FontSources is not yet implemented.")) ∧
    (∀ (α : Type) (x : α), putAxesSurface x = .error (.notImplementedError
      "GlyphsApp Backend: Editing Axes is not yet implemented.")) ∧
    (∀ v : Nat, putUnitsPerEmSurface v = .error (.notImplementedError
      "GlyphsApp Backend: Editing UnitsPerEm is not yet implemented.")) ∧
    (∀ (α : Type) (s : String) (x : α), putBackgroundImageSurface s x =
      .error (.notImplementedError
        "GlyphsApp Backend: Editing BackgroundImage is not yet implemented.")) ∧
    (∀ (α : Type) (x : α), putCustomDataSurface x = .error (.notImplementedError
      "GlyphsApp Backend: Editing CustomData is not yet implemented.")) ∧
    (∀ gm : List (String × List Nat), putGlyphMapSurface gm = .ok ()) :=
  ⟨fun _ _ => rfl, fun _ _ => rfl, fun _ _ => rfl, fun _ => rfl,
   fun _ _ _ => rfl, fun _ _ => rfl, fun _ => rfl⟩

/-- C10 amended: for a glyph name not present in the font, `getGlyph`
returns the absence sentinel, while `deleteGlyph` raises a `KeyError`
naming the glyph. -/
theorem c10_amended_unknown_name
    (F : FontM) (st : BackendStateM) (glyphName : String)
    (h : st.rawGlyphs.any (fun g => g.glyphname == some glyphName) = false) :
    (getGlyphM F st glyphName).1 = .ok none ∧
    (deleteGlyphM st glyphName).1 =
      .error (.keyError (deleteGlyphNotFoundMsg glyphName)) := by
  constructor
  · unfold getGlyphM
    rw [if_pos h]
  · unfold deleteGlyphM
    rw [if_pos h]

/-- C10 witness: the amended theorem at the name `Zed`, absent from
`stOne`. -/
theorem c10_amended_witness :
    (getGlyphM fontOneMaster stOne "Zed").1 = .ok none ∧
    (deleteGlyphM stOne "Zed").1 =
      .error (.keyError (deleteGlyphNotFoundMsg "Zed")) :=
  c10_amended_unknown_name fontOneMaster stOne "Zed" (by decide)

end FontraGlyphs
